import Mathlib

/-!
# A shallow embedding of the base9 virtual-machine core

This development embeds the interpreter core of the `b9` repository and
settles a list of specification claims against it.  The repository's
`src/b9/core.cpp` contains three successive revisions of the interpreter,
separated by document markers; we model all three where claims depend on
them:

* **revision A** (`core.cpp` lines 19–494): the oldest interpreter.
  `ExecutionContext::interpret` dispatches to JIT code inline (register
  convention for 0–3 arguments, otherwise it prints a message and returns
  `0`), loops over symbolic bytecodes and *returns the value under the
  stack pointer normally* when the bytecode array's sentinel is reached.
* **revision B** (`core.cpp` lines 511–957): `callFunction` /
  `interpretFunction` / `callJitFunction` / `callJitFunctionWithPassParam`
  plus `VirtualMachine::run`.  The `DUPLICATE` case is an unimplemented
  `TODO` no-op; the pass-param bridge supports 0–7 arguments and throws
  `std::runtime_error` beyond that; the sentinel again falls through to a
  normal return.
* **revision C** (`core.cpp` lines 982–1348): the newest interpreter,
  matching the opcode set of `src/b9/include/b9/interpreter.hpp`
  (`B9_INSTRUCTIONS_HPP_`): `ADD/SUB/MUL/DIV/NOT`, the `JMP_EQ_*` family,
  object opcodes, and a `throw std::runtime_error("Reached end of
  function")` when the `END_SECTION` sentinel is reached.

Machine integers are embedded as `Int`/`Nat` with explicit two's-complement
truncation where the C++ code converts; C++ exceptions become explicit
error values carrying the context state at the throw point; C++ undefined
behaviour (out-of-bounds access, unchecked division) becomes a distinct
error constructor, since it is not a catchable error in the source.
-/

set_option maxHeartbeats 1000000

namespace B9

/-- Two's-complement truncation of an integer to a signed 32-bit value,
modelling the C++ conversion to `std::int32_t`. -/
def toI32 (x : Int) : Int := (x + 2 ^ 31) % 2 ^ 32 - 2 ^ 31

/-- Two's-complement wrap-around of signed 64-bit arithmetic, modelling
`std::int64_t` (`StackElement`) arithmetic as compiled in practice and as
the spec's "integer arithmetic wraps on overflow" prescribes. -/
def toI64 (x : Int) : Int := (x + 2 ^ 63) % 2 ^ 64 - 2 ^ 63

/-- The bytecode set of `src/b9/include/b9/interpreter.hpp`
(`enum class ByteCode : RawByteCode`), revision C's opcode set, with the
numeric values fixed there. -/
inductive ByteCode
  | END_SECTION
  | FUNCTION_CALL
  | FUNCTION_RETURN
  | PRIMITIVE_CALL
  | DUPLICATE
  | DROP
  | PUSH_FROM_VAR
  | POP_INTO_VAR
  | ADD
  | SUB
  | MUL
  | DIV
  | INT_PUSH_CONSTANT
  | NOT
  | JMP
  | JMP_EQ_EQ
  | JMP_EQ_NEQ
  | JMP_EQ_GT
  | JMP_EQ_GE
  | JMP_EQ_LT
  | JMP_EQ_LE
  | STR_PUSH_CONSTANT
  | NEW_OBJECT
  | PUSH_FROM_OBJECT
  | POP_INTO_OBJECT
  | CALL_INDIRECT
  | SYSTEM_COLLECT
  deriving Repr, DecidableEq

/-- The numeric value of each opcode, exactly as assigned in
`interpreter.hpp` (`END_SECTION = 0x0` … `SYSTEM_COLLECT = 0x24`). -/
def ByteCode.toRaw : ByteCode → Nat
  | .END_SECTION => 0x0
  | .FUNCTION_CALL => 0x1
  | .FUNCTION_RETURN => 0x2
  | .PRIMITIVE_CALL => 0x3
  | .DUPLICATE => 0x4
  | .DROP => 0x5
  | .PUSH_FROM_VAR => 0x6
  | .POP_INTO_VAR => 0x7
  | .ADD => 0x8
  | .SUB => 0x9
  | .MUL => 0xa
  | .DIV => 0xb
  | .INT_PUSH_CONSTANT => 0xc
  | .NOT => 0xd
  | .JMP => 0xe
  | .JMP_EQ_EQ => 0xf
  | .JMP_EQ_NEQ => 0x10
  | .JMP_EQ_GT => 0x11
  | .JMP_EQ_GE => 0x12
  | .JMP_EQ_LT => 0x13
  | .JMP_EQ_LE => 0x14
  | .STR_PUSH_CONSTANT => 0x15
  | .NEW_OBJECT => 0x20
  | .PUSH_FROM_OBJECT => 0x21
  | .POP_INTO_OBJECT => 0x22
  | .CALL_INDIRECT => 0x23
  | .SYSTEM_COLLECT => 0x24

/-- Inverse of `ByteCode.toRaw`: the `static_cast<ByteCode>(raw >> 24)` of
the decoder lands on one of the enumerators or (for any other byte) on a
value no `case` label matches, modelled as `none`. -/
def ByteCode.fromRaw : Nat → Option ByteCode
  | 0x0 => some .END_SECTION
  | 0x1 => some .FUNCTION_CALL
  | 0x2 => some .FUNCTION_RETURN
  | 0x3 => some .PRIMITIVE_CALL
  | 0x4 => some .DUPLICATE
  | 0x5 => some .DROP
  | 0x6 => some .PUSH_FROM_VAR
  | 0x7 => some .POP_INTO_VAR
  | 0x8 => some .ADD
  | 0x9 => some .SUB
  | 0xa => some .MUL
  | 0xb => some .DIV
  | 0xc => some .INT_PUSH_CONSTANT
  | 0xd => some .NOT
  | 0xe => some .JMP
  | 0xf => some .JMP_EQ_EQ
  | 0x10 => some .JMP_EQ_NEQ
  | 0x11 => some .JMP_EQ_GT
  | 0x12 => some .JMP_EQ_GE
  | 0x13 => some .JMP_EQ_LT
  | 0x14 => some .JMP_EQ_LE
  | 0x15 => some .STR_PUSH_CONSTANT
  | 0x20 => some .NEW_OBJECT
  | 0x21 => some .PUSH_FROM_OBJECT
  | 0x22 => some .POP_INTO_OBJECT
  | 0x23 => some .CALL_INDIRECT
  | 0x24 => some .SYSTEM_COLLECT
  | _ => none

theorem ByteCode.fromRaw_toRaw (bc : ByteCode) : ByteCode.fromRaw bc.toRaw = some bc := by
  cases bc <;> rfl

/-- `Instruction(ByteCode bc, Parameter p)` from `interpreter.hpp`:
`raw = (RawInstruction(bc) << BYTECODE_SHIFT) | (p & PARAMETER_MASK)`.
The 24 parameter bits and the 8 shifted opcode bits are disjoint, so the
bitwise `|` is addition; `p & 0xFFFFFF` on a two's-complement
`std::int32_t` is `p mod 2^24`. -/
def encode (bc : ByteCode) (p : Int) : Nat :=
  bc.toRaw * 2 ^ 24 + (p % (2 ^ 24 : Int)).toNat

/-- `Instruction::byteCode()`: `raw_ >> BYTECODE_SHIFT` on the 32-bit raw
word. -/
def byteCodeOf (raw : Nat) : Nat := raw / 2 ^ 24

/-- `Instruction::parameter()`: keep the low 24 bits and sign-extend when
bit 23 (`0x0080'0000`) is set — `param |= 0xFF00'0000` reinterpreted as a
signed 32-bit value is `param - 2^24`. -/
def parameterOf (raw : Nat) : Int :=
  let q : Nat := raw % 2 ^ 24
  if q < 2 ^ 23 then (q : Int) else (q : Int) - 2 ^ 24

theorem encode_param_bits (p : Int) :
    (p % (2 ^ 24 : Int)).toNat < 2 ^ 24 := by
  have h1 : (0 : Int) ≤ p % 2 ^ 24 := Int.emod_nonneg _ (by norm_num)
  have h2 : p % (2 ^ 24 : Int) < 2 ^ 24 := Int.emod_lt_of_pos _ (by norm_num)
  omega

theorem byteCodeOf_encode (bc : ByteCode) (p : Int) :
    byteCodeOf (encode bc p) = bc.toRaw := by
  have h := encode_param_bits p
  unfold byteCodeOf encode
  omega

theorem parameterOf_eq (raw : Nat) :
    parameterOf raw =
      if raw % 2 ^ 24 < 2 ^ 23 then ((raw % 2 ^ 24 : Nat) : Int)
      else ((raw % 2 ^ 24 : Nat) : Int) - 2 ^ 24 := rfl

theorem parameterOf_encode (bc : ByteCode) (p : Int)
    (h1 : -(2 ^ 23) ≤ p) (h2 : p < 2 ^ 23) :
    parameterOf (encode bc p) = p := by
  have hb := encode_param_bits p
  have hmod : (encode bc p) % 2 ^ 24 = (p % (2 ^ 24 : Int)).toNat := by
    unfold encode; omega
  have h0 : (0 : Int) ≤ p % 2 ^ 24 := Int.emod_nonneg _ (by norm_num)
  have hlt : p % (2 ^ 24 : Int) < 2 ^ 24 := Int.emod_lt_of_pos _ (by norm_num)
  have hval : p % (2 ^ 24 : Int) = p ∨ p % (2 ^ 24 : Int) = p + 2 ^ 24 := by
    omega
  rw [parameterOf_eq, hmod]
  split <;> omega

/-! ## Execution context state

`ExecutionContext` owns a fixed array `StackElement stack_[1000]`, a stack
pointer into it, and a `programCounter_` bumped once per interpreted
instruction.  We model the array as a list of fixed length (`mem`), the
stack pointer as an index (`sp`), and the program counter as a counter.
`StackElement` is `std::int64_t` in revisions A/B; revision C's
`Om::Value` is not in the sources, so (modelled from the spec, §3) its
integer payload is carried as an `Int` and converted with `toI32` where the
C++ code converts to `std::int32_t`. -/

/-- A `StackElement`: the raw 64-bit value on the operand stack. -/
abbrev StackElement := Int

/-- The mutable part of an `ExecutionContext`: operand-stack array, stack
pointer and program counter. -/
structure ExecState where
  mem : List StackElement
  sp : Nat
  pc : Nat
  deriving Repr, DecidableEq

/-- Errors produced inside the execution engine.  `fault` models a C++
`throw std::runtime_error{…}` (catchable, carries the message);
`assertFailed` models `assert(false)` firing in a debug build; `ub` marks
C++ undefined behaviour (out-of-bounds access, unchecked division), which
in the source is not a raised error at all but a crash or memory
corruption; `outOfFuel` is an artefact of the fuelled embedding and never
corresponds to a source behaviour; `unmodelled` marks the heap-object
opcodes, whose OMR heap is outside the sources and the claims. -/
inductive Err
  | fault (msg : String)
  | assertFailed
  | ub (msg : String)
  | outOfFuel
  | unmodelled (msg : String)
  deriving Repr, DecidableEq

/-- Errors escaping `VirtualMachine::run`.  `BadFunctionCallException` is a
distinct C++ exception type from the interpreter's `std::runtime_error`
faults, which is mirrored by keeping the two as distinct constructors. -/
inductive RunErr
  | badFunctionCall (msg : String)
  | exec (e : Err)
  deriving Repr, DecidableEq

deriving instance DecidableEq for Except

/-- `ExecutionContext::push` (`*(stackPointer_++) = value`): write at the
stack pointer and bump it.  Writing past the 1000-element array is a buffer
overflow in the source, surfaced as `ub`. -/
def ExecState.push (st : ExecState) (v : StackElement) :
    Except (Err × ExecState) ExecState :=
  if st.sp < st.mem.length then
    .ok { st with mem := st.mem.set st.sp v, sp := st.sp + 1 }
  else
    .error (.ub "operand stack overflow", st)

/-- `ExecutionContext::pop` (`return *(--stackPointer_)`): decrement the
stack pointer and read.  Popping with the pointer at the array base reads
before the array — `ub`. -/
def ExecState.pop (st : ExecState) :
    Except (Err × ExecState) (StackElement × ExecState) :=
  if st.sp = 0 then
    .error (.ub "operand stack underflow", st)
  else
    .ok (st.mem.getD (st.sp - 1) 0, { st with sp := st.sp - 1 })

/-- `OperandStack::peek` — read the element under the stack pointer without
moving it (modelled from the spec, §4.2, the class itself is not in the
sources). -/
def ExecState.peek (st : ExecState) :
    Except (Err × ExecState) StackElement :=
  if st.sp = 0 then
    .error (.ub "operand stack underflow", st)
  else
    .ok (st.mem.getD (st.sp - 1) 0)

/-- `OperandStack::pushn(n)` — reserve `n` zero-initialised local slots
(modelled from the spec, §4.2: "`pushN(n)` reserving uninitialized
(zero-filled) slots for locals … Locals are zero-initialized on function
entry"). -/
def ExecState.pushn (st : ExecState) : Nat → Except (Err × ExecState) ExecState
  | 0 => .ok st
  | n + 1 => do
    let st ← st.push 0
    st.pushn n

/-- Revisions A and B reserve locals by `stackPointer_ += function->nregs`
without initialising them: the stack pointer moves and the memory keeps
whatever it held. -/
def ExecState.bumpSp (st : ExecState) (n : Nat) :
    Except (Err × ExecState) ExecState :=
  if st.sp + n ≤ st.mem.length then
    .ok { st with sp := st.sp + n }
  else
    .error (.ub "operand stack overflow", st)

/-- `OperandStack::restore(p)` / `stackPointer_ = args`: reset the stack
pointer to a saved position. -/
def ExecState.restore (st : ExecState) (p : Nat) : ExecState :=
  { st with sp := p }

/-- `ExecutionContext::reset`: `stackPointer_ = stack_;
programCounter_ = 0`. -/
def ExecState.reset (st : ExecState) : ExecState :=
  { st with sp := 0, pc := 0 }

/-- Bump the program counter, as the `programCounter_++` at the bottom of
every interpreter loop iteration does. -/
def ExecState.bumpPc (st : ExecState) : ExecState :=
  { st with pc := st.pc + 1 }

/-- The host primitives bound by the reference corpus (`b9_prim_print_string`,
`b9_prim_print_number` in `core.cpp`; `print_stack` per the spec, §6).  The
printing side effect is dropped; the stack effect is the source's: the
printing primitives pop their argument and push `0`, the diagnostic dump
leaves the stack alone. -/
inductive Prim
  | print_string
  | print_number
  | print_stack
  deriving Repr, DecidableEq

/-- Apply a primitive's stack effect to the context, as the
`PrimitiveFunction` bodies in `core.cpp` do. -/
def Prim.apply : Prim → ExecState → Except (Err × ExecState) ExecState
  | .print_string, st => do
    let (_, st) ← st.pop
    st.push 0
  | .print_number, st => do
    let (_, st) ← st.pop
    st.push 0
  | .print_stack, st => .ok st

/-! ## Revision C: the current interpreter

`ExecutionContext::interpret` at `core.cpp` lines 1037–1144 together with
the `do…` bytecode implementations at lines 1150–1346.  Instructions are
the raw 32-bit words of `interpreter.hpp`; the loop runs while
`*instructionPointer != END_SECTION` (a raw comparison against the
all-zero sentinel word) and throws `std::runtime_error("Reached end of
function")` when the sentinel is reached. -/

/-- `FunctionSpec` (spec §3): name, argument count, register count and the
bytecode array (raw 32-bit instruction words, revision C's
`function->instructions.data()`). -/
structure FunctionSpec where
  name : String
  nargs : Nat
  nregs : Nat
  instructions : List Nat
  deriving Repr, DecidableEq

/-- An entry of the compiled-code table: an opaque native callable.  It
receives the argument `Value`s popped by the bridge (empty for the stack
calling convention, where the native code works on the context directly)
and the context state, and returns a raw result together with the context
state it leaves behind.  The native code itself is a black box (spec §1). -/
def JitC : Type :=
  List StackElement → ExecState → Except (Err × ExecState) (StackElement × ExecState)

/-- The immutable surroundings of a revision-C execution: the loaded
module's function and primitive tables, the compiled-code table and the
`passParam` configuration bit. -/
structure EnvC where
  functions : List FunctionSpec
  primitives : List Prim
  compiled : List (Option JitC)
  passParam : Bool

/-- `VirtualMachine::getFunction`: `&module_->functions[index]`, an
unchecked `std::vector` subscript — out of range is undefined behaviour.
The index arrives as a `Parameter` cast to `std::size_t`, so a negative
parameter becomes a huge unsigned index, also out of range. -/
def getFunctionC (env : EnvC) (idx : Int) (st : ExecState) :
    Except (Err × ExecState) FunctionSpec :=
  if 0 ≤ idx ∧ idx.toNat < env.functions.length then
    .ok (env.functions.getD idx.toNat ⟨"", 0, 0, []⟩)
  else
    .error (.ub "function index out of range", st)

/-- `VirtualMachine::getJitAddress`: `nullptr` whenever the index is not
below the compiled-code table's size, otherwise the stored entry (itself
possibly null).  A negative parameter cast to `std::size_t` is huge and
falls under the same guard. -/
def getJitAddressC (env : EnvC) (idx : Int) : Option JitC :=
  if 0 ≤ idx ∧ idx.toNat < env.compiled.length then
    env.compiled.getD idx.toNat none
  else
    none

/-- `ExecutionContext::callJitFunction` (revision C, lines 998–1035): under
`passParam`, pop 0–3 arguments and invoke the native entry with them
(last-popped first); more than 3 throws `std::runtime_error{"Need to add
handlers for more parameters"}`.  Without `passParam` the native entry is
invoked on the context alone. -/
def callJitFunctionC (env : EnvC) (jitFn : JitC) (nargs : Nat) (st : ExecState) :
    Except (Err × ExecState) (StackElement × ExecState) :=
  if env.passParam then
    match nargs with
    | 0 => jitFn [] st
    | 1 => do
      let (p1, st) ← st.pop
      jitFn [p1] st
    | 2 => do
      let (p2, st) ← st.pop
      let (p1, st) ← st.pop
      jitFn [p1, p2] st
    | 3 => do
      let (p3, st) ← st.pop
      let (p2, st) ← st.pop
      let (p1, st) ← st.pop
      jitFn [p1, p2, p3] st
    | _ + 4 => .error (.fault "Need to add handlers for more parameters", st)
  else
    jitFn [] st

/-- The outcome of one iteration of the revision-C dispatch `switch`:
continue at a new instruction pointer, return from the function, or fail. -/
inductive StepC
  | next (ip : Int) (st : ExecState)
  | ret (v : StackElement) (st : ExecState)
  | err (e : Err) (st : ExecState)

/-- Feed an `Except` into a step continuation, turning a raised error into
a failing step. -/
def StepC.ofExcept {α : Type} (x : Except (Err × ExecState) α)
    (k : α → StepC) : StepC :=
  match x with
  | .error (e, st) => .err e st
  | .ok a => k a

/-- One iteration of revision C's interpreter loop (lines 1052–1142): fetch
`*instructionPointer`, exit with the fatal "Reached end of function" error
on the `END_SECTION` sentinel, otherwise dispatch on `byteCode()` exactly
as the `switch` does, using the `do…` implementations of lines 1150–1346.
`rec` is the recursive entry `ExecutionContext::interpret` used by
`doFunctionCall`; `args` is the saved `args` pointer; every continuing
case advances the instruction pointer past the dispatched instruction and
bumps the program counter. -/
def stepC (env : EnvC)
    (rec : Int → ExecState → Except (Err × ExecState) (StackElement × ExecState))
    (fn : FunctionSpec) (args : Nat) (ip : Int) (st : ExecState) : StepC :=
  if 0 ≤ ip ∧ ip.toNat < fn.instructions.length then
    let instr := fn.instructions.getD ip.toNat 0
    if instr = 0 then
      .err (.fault "Reached end of function") st
    else
      let p := parameterOf instr
      match ByteCode.fromRaw (byteCodeOf instr) with
      | some .FUNCTION_CALL =>
        .ofExcept (rec p st) fun (v, st) =>
        .ofExcept (st.push v) fun st =>
        .next (ip + 1) st.bumpPc
      | some .FUNCTION_RETURN =>
        .ofExcept st.pop fun (v, st) =>
        .ret v (st.restore args)
      | some .PRIMITIVE_CALL =>
        if 0 ≤ p ∧ p.toNat < env.primitives.length then
          .ofExcept ((env.primitives.getD p.toNat .print_stack).apply st) fun st =>
          .next (ip + 1) st.bumpPc
        else
          .err (.ub "primitive index out of range") st
      | some .JMP =>
        .next (ip + p + 1) st.bumpPc
      | some .DUPLICATE =>
        .ofExcept st.peek fun v =>
        .ofExcept (st.push v) fun st =>
        .next (ip + 1) st.bumpPc
      | some .DROP =>
        .ofExcept st.pop fun (_, st) =>
        .next (ip + 1) st.bumpPc
      | some .PUSH_FROM_VAR =>
        let i := (args : Int) + p
        if 0 ≤ i ∧ i.toNat < st.mem.length then
          .ofExcept (st.push (st.mem.getD i.toNat 0)) fun st =>
          .next (ip + 1) st.bumpPc
        else
          .err (.ub "variable access out of bounds") st
      | some .POP_INTO_VAR =>
        .ofExcept st.pop fun (v, st) =>
        let i := (args : Int) + p
        if 0 ≤ i ∧ i.toNat < st.mem.length then
          .next (ip + 1) ({ st with mem := st.mem.set i.toNat v }).bumpPc
        else
          .err (.ub "variable access out of bounds") st
      | some .ADD =>
        .ofExcept st.pop fun (r, st) =>
        .ofExcept st.pop fun (l, st) =>
        .ofExcept (st.push (toI32 (toI32 l + toI32 r))) fun st =>
        .next (ip + 1) st.bumpPc
      | some .SUB =>
        .ofExcept st.pop fun (r, st) =>
        .ofExcept st.pop fun (l, st) =>
        .ofExcept (st.push (toI32 (toI32 l - toI32 r))) fun st =>
        .next (ip + 1) st.bumpPc
      | some .MUL =>
        .ofExcept st.pop fun (r, st) =>
        .ofExcept st.pop fun (l, st) =>
        .ofExcept (st.push (toI32 (toI32 l * toI32 r))) fun st =>
        .next (ip + 1) st.bumpPc
      | some .DIV =>
        .ofExcept st.pop fun (r, st) =>
        .ofExcept st.pop fun (l, st) =>
        if toI32 r = 0 then
          .err (.ub "integer division by zero") st
        else if toI32 l = -(2 ^ 31) ∧ toI32 r = -1 then
          .err (.ub "integer division overflow") st
        else
          .ofExcept (st.push ((toI32 l).tdiv (toI32 r))) fun st =>
          .next (ip + 1) st.bumpPc
      | some .INT_PUSH_CONSTANT =>
        .ofExcept (st.push p) fun st =>
        .next (ip + 1) st.bumpPc
      | some .NOT =>
        .ofExcept st.pop fun (v, st) =>
        .ofExcept (st.push (if toI32 v = 0 then 1 else 0)) fun st =>
        .next (ip + 1) st.bumpPc
      | some .JMP_EQ_EQ =>
        .ofExcept st.pop fun (r, st) =>
        .ofExcept st.pop fun (l, st) =>
        .next (ip + (if toI32 l = toI32 r then p else 0) + 1) st.bumpPc
      | some .JMP_EQ_NEQ =>
        .ofExcept st.pop fun (r, st) =>
        .ofExcept st.pop fun (l, st) =>
        .next (ip + (if toI32 l ≠ toI32 r then p else 0) + 1) st.bumpPc
      | some .JMP_EQ_GT =>
        .ofExcept st.pop fun (r, st) =>
        .ofExcept st.pop fun (l, st) =>
        .next (ip + (if toI32 l > toI32 r then p else 0) + 1) st.bumpPc
      | some .JMP_EQ_GE =>
        .ofExcept st.pop fun (r, st) =>
        .ofExcept st.pop fun (l, st) =>
        .next (ip + (if toI32 l ≥ toI32 r then p else 0) + 1) st.bumpPc
      | some .JMP_EQ_LT =>
        .ofExcept st.pop fun (r, st) =>
        .ofExcept st.pop fun (l, st) =>
        .next (ip + (if toI32 l < toI32 r then p else 0) + 1) st.bumpPc
      | some .JMP_EQ_LE =>
        .ofExcept st.pop fun (r, st) =>
        .ofExcept st.pop fun (l, st) =>
        .next (ip + (if toI32 l ≤ toI32 r then p else 0) + 1) st.bumpPc
      | some .STR_PUSH_CONSTANT =>
        .ofExcept (st.push p) fun st =>
        .next (ip + 1) st.bumpPc
      | some .NEW_OBJECT =>
        .err (.unmodelled "object allocation (OMR heap outside the sources)") st
      | some .PUSH_FROM_OBJECT =>
        .err (.unmodelled "object slot read (OMR heap outside the sources)") st
      | some .POP_INTO_OBJECT =>
        .err (.unmodelled "object slot write (OMR heap outside the sources)") st
      | some .CALL_INDIRECT =>
        .err .assertFailed st
      | some .SYSTEM_COLLECT =>
        .next (ip + 1) st.bumpPc
      | some .END_SECTION =>
        .err .assertFailed st
      | none =>
        .err .assertFailed st
  else
    .err (.ub "instruction fetch out of bounds") st

/-- The two entry points of the revision-C engine: calling a function, or
continuing its bytecode loop at an instruction pointer. -/
inductive ReqC
  | call (idx : Int)
  | loop (fn : FunctionSpec) (args : Nat) (ip : Int)

/-- Revision C's `ExecutionContext::interpret`, fuelled.  A `call` consults
the compiled-code table (`getJitAddress`) and either enters native code via
`callJitFunction` or records `args = stack_.top() - nargs`, reserves
`nregs` locals (`stack_.pushn`) and starts the bytecode loop; a `loop`
request performs one `stepC` iteration.  Fuel decreases on every loop
iteration and every nested call, so exhausting it (`outOfFuel`) only cuts
off diverging executions. -/
def interpC (env : EnvC) :
    Nat → ReqC → ExecState → Except (Err × ExecState) (StackElement × ExecState)
  | 0, _, st => .error (.outOfFuel, st)
  | fuel + 1, .call idx, st =>
    match getFunctionC env idx st with
    | .error e => .error e
    | .ok fn =>
      match getJitAddressC env idx with
      | some jitFn => callJitFunctionC env jitFn fn.nargs st
      | none =>
        if st.sp < fn.nargs then
          .error (.ub "args pointer below the stack base", st)
        else
          match st.pushn fn.nregs with
          | .error e => .error e
          | .ok st' => interpC env fuel (.loop fn (st.sp - fn.nargs) 0) st'
  | fuel + 1, .loop fn args ip, st =>
    match stepC env (fun idx st => interpC env fuel (.call idx) st) fn args ip st with
    | .err e st' => .error (e, st')
    | .ret v st' => .ok (v, st')
    | .next ip' st' => interpC env fuel (.loop fn args ip') st'

/-- `ExecutionContext::interpret(functionIndex)` (revision C). -/
def interpretC (env : EnvC) (fuel : Nat) (idx : Int) (st : ExecState) :
    Except (Err × ExecState) (StackElement × ExecState) :=
  interpC env fuel (.call idx) st

/-- Revision C's interpreter loop, resumed at instruction pointer `ip` of
function `fn` with saved `args` pointer `args`. -/
def loopC (env : EnvC) (fuel : Nat) (fn : FunctionSpec) (args : Nat) (ip : Int)
    (st : ExecState) : Except (Err × ExecState) (StackElement × ExecState) :=
  interpC env fuel (.loop fn args ip) st

/-! ## Revisions A and B: the two earlier interpreters

Both dispatch on the bytecode enum of the missing `b9/bytecodes.hpp` /
`b9/core.hpp` headers (`INT_ADD`, `INT_JMP_EQ`, …), whose numeric values
are not in the sources; their instructions are therefore embedded
symbolically as (opcode, parameter) pairs.  `StackElement` is a raw
`std::int64_t` here, and the sentinel comparison
`*instructionPointer != END_SECTION` compares the whole instruction
against the zero-parameter sentinel. -/

/-- The symbolic opcode set shared by the two earlier interpreter
revisions (revision A's `switch` at `core.cpp` lines 250–315 and revision
B's at lines 541–612).  Opcodes outside a revision's `switch` fall to its
`default: assert(false)`. -/
inductive BOp
  | END_SECTION
  | FUNCTION_CALL
  | FUNCTION_RETURN
  | PRIMITIVE_CALL
  | DUPLICATE
  | DROP
  | PUSH_FROM_VAR
  | POP_INTO_VAR
  | INT_ADD
  | INT_SUB
  | INT_PUSH_CONSTANT
  | JMP
  | INT_JMP_EQ
  | INT_JMP_NEQ
  | INT_JMP_GT
  | INT_JMP_GE
  | INT_JMP_LT
  | INT_JMP_LE
  | STR_PUSH_CONSTANT
  | STR_JMP_EQ
  | STR_JMP_NEQ
  deriving Repr, DecidableEq

/-- A function record as the earlier revisions use it: `name`, `nargs`,
`nregs` and the bytecode array as symbolic (opcode, parameter) pairs. -/
structure SymFunctionSpec where
  name : String
  nargs : Nat
  nregs : Nat
  instructions : List (BOp × Int)
  deriving Repr, DecidableEq

/-- An entry of the compiled-code table for revisions A/B.  The single
C function pointer (`JitFunction`, a varargs pointer) is invoked under two
ABIs; the opaque native code is modelled by one behaviour per ABI:
`passParamFn` receives the popped argument `Value`s positionally (register
calling convention, `JIT_0_args` … in revision A, `jitFunction(p1, …)` in
revision B), `stackFn` receives the execution context (stack calling
convention, `jitFunction(this, index)`). -/
structure JitEntry where
  passParamFn : List StackElement → StackElement
  stackFn : ExecState → Except (Err × ExecState) (StackElement × ExecState)

/-- The surroundings of a revision-A/B execution: the module's tables, the
compiled-code table, and the `jit` / `passParam` configuration bits. -/
structure SymEnv where
  functions : List SymFunctionSpec
  strings : List StackElement
  primitives : List Prim
  compiled : List (Option JitEntry)
  jit : Bool
  passParam : Bool

/-- `VirtualMachine::getFunction` (revisions A/B): unchecked
`&module_->functions[index]`; an index arriving as a negative `Parameter`
becomes a huge `std::size_t`, equally out of range. -/
def getFunctionB (env : SymEnv) (idx : Int) (st : ExecState) :
    Except (Err × ExecState) SymFunctionSpec :=
  if 0 ≤ idx ∧ idx.toNat < env.functions.length then
    .ok (env.functions.getD idx.toNat ⟨"", 0, 0, []⟩)
  else
    .error (.ub "function index out of range", st)

/-- `VirtualMachine::getJitAddress` (`core.cpp` lines 873–878, identically
at 322–327): `nullptr` whenever `functionIndex >= compiledFunctions_.size()`,
otherwise `compiledFunctions_[functionIndex]` (itself possibly null). -/
def getJitAddressB (env : SymEnv) (idx : Int) : Option JitEntry :=
  if 0 ≤ idx ∧ idx.toNat < env.compiled.length then
    env.compiled.getD idx.toNat none
  else
    none

/-- `VirtualMachine::getString`: `module_->strings[index]`, an unchecked
subscript returning a `char *`, pushed as an opaque pointer value. -/
def getStringB (env : SymEnv) (idx : Int) (st : ExecState) :
    Except (Err × ExecState) StackElement :=
  if 0 ≤ idx ∧ idx.toNat < env.strings.length then
    .ok (env.strings.getD idx.toNat 0)
  else
    .error (.ub "string index out of range", st)

/-- `ExecutionContext::callJitFunctionWithPassParam` (`core.cpp` lines
637–711): assert the register calling convention, re-fetch the function
and its non-null compiled entry, pop 0–7 arguments off the operand stack
(the last-pushed `Value` popped first, becoming the rightmost positional
parameter) and invoke the entry; any larger arity throws
`std::runtime_error{"Interpreter to JIT transition failed: too many
arguments"}`. -/
def callJitFunctionWithPassParamB (env : SymEnv) (idx : Int) (st : ExecState) :
    Except (Err × ExecState) (StackElement × ExecState) :=
  if env.passParam = false then .error (.assertFailed, st)
  else
    match getFunctionB env idx st with
    | .error e => .error e
    | .ok fn =>
      match getJitAddressB env idx with
      | none => .error (.assertFailed, st)
      | some entry =>
        match fn.nargs with
        | 0 => .ok (entry.passParamFn [], st)
        | 1 => do
          let (p1, st) ← st.pop
          .ok (entry.passParamFn [p1], st)
        | 2 => do
          let (p2, st) ← st.pop
          let (p1, st) ← st.pop
          .ok (entry.passParamFn [p1, p2], st)
        | 3 => do
          let (p3, st) ← st.pop
          let (p2, st) ← st.pop
          let (p1, st) ← st.pop
          .ok (entry.passParamFn [p1, p2, p3], st)
        | 4 => do
          let (p4, st) ← st.pop
          let (p3, st) ← st.pop
          let (p2, st) ← st.pop
          let (p1, st) ← st.pop
          .ok (entry.passParamFn [p1, p2, p3, p4], st)
        | 5 => do
          let (p5, st) ← st.pop
          let (p4, st) ← st.pop
          let (p3, st) ← st.pop
          let (p2, st) ← st.pop
          let (p1, st) ← st.pop
          .ok (entry.passParamFn [p1, p2, p3, p4, p5], st)
        | 6 => do
          let (p6, st) ← st.pop
          let (p5, st) ← st.pop
          let (p4, st) ← st.pop
          let (p3, st) ← st.pop
          let (p2, st) ← st.pop
          let (p1, st) ← st.pop
          .ok (entry.passParamFn [p1, p2, p3, p4, p5, p6], st)
        | 7 => do
          let (p7, st) ← st.pop
          let (p6, st) ← st.pop
          let (p5, st) ← st.pop
          let (p4, st) ← st.pop
          let (p3, st) ← st.pop
          let (p2, st) ← st.pop
          let (p1, st) ← st.pop
          .ok (entry.passParamFn [p1, p2, p3, p4, p5, p6, p7], st)
        | _ + 8 =>
          .error (.fault "Interpreter to JIT transition failed: too many arguments", st)

/-- `ExecutionContext::callJitFunction` (revision B, lines 620–635):
assert the JIT is on, then dispatch on the calling convention —
`callJitFunctionWithPassParam` under `passParam`, otherwise invoke the
(asserted non-null) compiled entry with `(this, index)`. -/
def callJitFunctionB (env : SymEnv) (idx : Int) (st : ExecState) :
    Except (Err × ExecState) (StackElement × ExecState) :=
  if env.jit = false then .error (.assertFailed, st)
  else if env.passParam then callJitFunctionWithPassParamB env idx st
  else
    match getJitAddressB env idx with
    | none => .error (.assertFailed, st)
    | some entry => entry.stackFn st

/-- One iteration of revision B's `interpretFunction` loop (lines 540–616):
exit the `while` on the `END_SECTION` sentinel instruction and return the
value under the stack pointer *normally*; otherwise dispatch.  The
`DUPLICATE`, `STR_JMP_EQ` and `STR_JMP_NEQ` cases are unimplemented
`TODO`s — they fall straight through to the bottom of the loop, changing
nothing but the counters. -/
inductive StepB
  | next (ip : Int) (st : ExecState)
  | ret (v : StackElement) (st : ExecState)
  | err (e : Err) (st : ExecState)

/-- Feed an `Except` into a revision-A/B step continuation. -/
def StepB.ofExcept {α : Type} (x : Except (Err × ExecState) α)
    (k : α → StepB) : StepB :=
  match x with
  | .error (e, st) => .err e st
  | .ok a => k a

def stepB (env : SymEnv)
    (rec : Int → ExecState → Except (Err × ExecState) (StackElement × ExecState))
    (fn : SymFunctionSpec) (args : Nat) (ip : Int) (st : ExecState) : StepB :=
  if 0 ≤ ip ∧ ip.toNat < fn.instructions.length then
    let instr := fn.instructions.getD ip.toNat (.END_SECTION, 0)
    if instr = (.END_SECTION, 0) then
      .ofExcept st.peek fun v => .ret v st
    else
      let p := instr.2
      match instr.1 with
      | .FUNCTION_CALL =>
        .ofExcept (rec p st) fun (v, st) =>
        .ofExcept (st.push v) fun st =>
        .next (ip + 1) st.bumpPc
      | .FUNCTION_RETURN =>
        .ofExcept st.peek fun v =>
        .ret v (st.restore args)
      | .PRIMITIVE_CALL =>
        if 0 ≤ p ∧ p.toNat < env.primitives.length then
          .ofExcept ((env.primitives.getD p.toNat .print_stack).apply st) fun st =>
          .next (ip + 1) st.bumpPc
        else
          .err (.ub "primitive index out of range") st
      | .JMP =>
        .next (ip + p + 1) st.bumpPc
      | .DUPLICATE =>
        .next (ip + 1) st.bumpPc
      | .DROP =>
        .ofExcept st.pop fun (_, st) =>
        .next (ip + 1) st.bumpPc
      | .PUSH_FROM_VAR =>
        let i := (args : Int) + p
        if 0 ≤ i ∧ i.toNat < st.mem.length then
          .ofExcept (st.push (st.mem.getD i.toNat 0)) fun st =>
          .next (ip + 1) st.bumpPc
        else
          .err (.ub "variable access out of bounds") st
      | .POP_INTO_VAR =>
        .ofExcept st.pop fun (v, st) =>
        let i := (args : Int) + p
        if 0 ≤ i ∧ i.toNat < st.mem.length then
          .next (ip + 1) ({ st with mem := st.mem.set i.toNat v }).bumpPc
        else
          .err (.ub "variable access out of bounds") st
      | .INT_ADD =>
        .ofExcept st.pop fun (r, st) =>
        .ofExcept st.pop fun (l, st) =>
        .ofExcept (st.push (toI64 (l + r))) fun st =>
        .next (ip + 1) st.bumpPc
      | .INT_SUB =>
        .ofExcept st.pop fun (r, st) =>
        .ofExcept st.pop fun (l, st) =>
        .ofExcept (st.push (toI64 (l - r))) fun st =>
        .next (ip + 1) st.bumpPc
      | .INT_PUSH_CONSTANT =>
        .ofExcept (st.push p) fun st =>
        .next (ip + 1) st.bumpPc
      | .INT_JMP_EQ =>
        .ofExcept st.pop fun (r, st) =>
        .ofExcept st.pop fun (l, st) =>
        .next (ip + (if l = r then p else 0) + 1) st.bumpPc
      | .INT_JMP_NEQ =>
        .ofExcept st.pop fun (r, st) =>
        .ofExcept st.pop fun (l, st) =>
        .next (ip + (if l ≠ r then p else 0) + 1) st.bumpPc
      | .INT_JMP_GT =>
        .ofExcept st.pop fun (r, st) =>
        .ofExcept st.pop fun (l, st) =>
        .next (ip + (if l > r then p else 0) + 1) st.bumpPc
      | .INT_JMP_GE =>
        .ofExcept st.pop fun (r, st) =>
        .ofExcept st.pop fun (l, st) =>
        .next (ip + (if l ≥ r then p else 0) + 1) st.bumpPc
      | .INT_JMP_LT =>
        .ofExcept st.pop fun (r, st) =>
        .ofExcept st.pop fun (l, st) =>
        .next (ip + (if l < r then p else 0) + 1) st.bumpPc
      | .INT_JMP_LE =>
        .ofExcept st.pop fun (r, st) =>
        .ofExcept st.pop fun (l, st) =>
        .next (ip + (if l ≤ r then p else 0) + 1) st.bumpPc
      | .STR_PUSH_CONSTANT =>
        .ofExcept (getStringB env p st) fun v =>
        .ofExcept (st.push v) fun st =>
        .next (ip + 1) st.bumpPc
      | .STR_JMP_EQ =>
        .next (ip + 1) st.bumpPc
      | .STR_JMP_NEQ =>
        .next (ip + 1) st.bumpPc
      | .END_SECTION =>
        .err .assertFailed st
  else
    .err (.ub "instruction fetch out of bounds") st

/-- The two entry points of the revision-B engine. -/
inductive ReqB
  | callF (idx : Int)
  | loopF (fn : SymFunctionSpec) (args : Nat) (ip : Int)

/-- Revision B's engine, fuelled.  A `callF` is
`ExecutionContext::callFunction` (lines 517–528): consult `getJitAddress`
and either `callJitFunction` or fall into `interpretFunction`, which
records `args = stackPointer_ - nargs`, bumps the stack pointer over
`nregs` uninitialised locals and starts the loop. -/
def interpB (env : SymEnv) :
    Nat → ReqB → ExecState → Except (Err × ExecState) (StackElement × ExecState)
  | 0, _, st => .error (.outOfFuel, st)
  | fuel + 1, .callF idx, st =>
    match getJitAddressB env idx with
    | some _ => callJitFunctionB env idx st
    | none =>
      match getFunctionB env idx st with
      | .error e => .error e
      | .ok fn =>
        if st.sp < fn.nargs then
          .error (.ub "args pointer below the stack base", st)
        else
          match st.bumpSp fn.nregs with
          | .error e => .error e
          | .ok st' => interpB env fuel (.loopF fn (st.sp - fn.nargs) 0) st'
  | fuel + 1, .loopF fn args ip, st =>
    match stepB env (fun idx st => interpB env fuel (.callF idx) st) fn args ip st with
    | .err e st' => .error (e, st')
    | .ret v st' => .ok (v, st')
    | .next ip' st' => interpB env fuel (.loopF fn args ip') st'

/-- `ExecutionContext::callFunction(index)` (revision B). -/
def callFunctionB (env : SymEnv) (fuel : Nat) (idx : Int) (st : ExecState) :
    Except (Err × ExecState) (StackElement × ExecState) :=
  interpB env fuel (.callF idx) st

/-- Revision B's `interpretFunction` loop, resumed at instruction pointer
`ip` with saved `args` pointer. -/
def loopB (env : SymEnv) (fuel : Nat) (fn : SymFunctionSpec) (args : Nat)
    (ip : Int) (st : ExecState) :
    Except (Err × ExecState) (StackElement × ExecState) :=
  interpB env fuel (.loopF fn args ip) st

/-- Push a list of values left to right (`ExecutionContext::push` per
element). -/
def ExecState.pushAll (st : ExecState) :
    List StackElement → Except (Err × ExecState) ExecState
  | [] => .ok st
  | v :: vs => do
    let st ← st.push v
    st.pushAll vs

/-- `VirtualMachine::run(functionIndex, usrArgs)` (revision B, `core.cpp`
lines 924–955): fetch the target `FunctionSpec`; throw
`BadFunctionCallException` when `usrArgs.size()` differs from its `nargs`
(before anything is pushed); otherwise push the user arguments (the loop
walks `idx = argsCount-1 … 0`, so they go on in reverse), call
`callFunction`, and reset the execution context after a normal return.
There is no `try`/`catch`: an exception from `callFunction` propagates out
with the context exactly as the fault left it. -/
def runB (env : SymEnv) (fuel : Nat) (idx : Nat) (usrArgs : List StackElement)
    (st : ExecState) : Except (RunErr × ExecState) (StackElement × ExecState) :=
  match getFunctionB env (idx : Int) st with
  | .error (e, st') => .error (.exec e, st')
  | .ok fn =>
    if fn.nargs ≠ usrArgs.length then
      .error (.badFunctionCall (fn.name ++ " - Got " ++ toString usrArgs.length
        ++ " arguments, expected " ++ toString fn.nargs), st)
    else
      match st.pushAll usrArgs.reverse with
      | .error (e, st') => .error (.exec e, st')
      | .ok st' =>
        match callFunctionB env fuel (idx : Int) st' with
        | .error (e, st'') => .error (.exec e, st'')
        | .ok (v, st'') => .ok (v, st''.reset)

/-! ## Revision A: the oldest interpreter

`ExecutionContext::interpret` at `core.cpp` lines 183–320.  The JIT
dispatch is inline: under `passParam` a `switch` on the argument count
handles 0–3 arguments and its `default` merely prints "Need to add
handlers for more parameters" and breaks, so the call *returns the
untouched `result = 0` normally*, popping nothing.  The bytecode loop runs
while `*instructionPointer != NO_MORE_BYTECODES` and, when the sentinel is
reached, returns `*(stackPointer_ - 1)` normally.  (`NO_MORE_BYTECODES`
lives in the missing `b9/core.hpp`; modelled from the spec, §3, as the
zero-parameter `END_SECTION` sentinel instruction.) -/

/-- One iteration of revision A's interpreter loop (lines 245–318).  The
opcode set is the subset dispatched there; anything else falls to
`default: assert(false)`. -/
def stepA (env : SymEnv)
    (rec : Int → ExecState → Except (Err × ExecState) (StackElement × ExecState))
    (fn : SymFunctionSpec) (args : Nat) (ip : Int) (st : ExecState) : StepB :=
  if 0 ≤ ip ∧ ip.toNat < fn.instructions.length then
    let instr := fn.instructions.getD ip.toNat (.END_SECTION, 0)
    if instr = (.END_SECTION, 0) then
      .ofExcept st.peek fun v => .ret v st
    else
      let p := instr.2
      match instr.1 with
      | .INT_PUSH_CONSTANT =>
        .ofExcept (st.push p) fun st =>
        .next (ip + 1) st.bumpPc
      | .STR_PUSH_CONSTANT =>
        .ofExcept (getStringB env p st) fun v =>
        .ofExcept (st.push v) fun st =>
        .next (ip + 1) st.bumpPc
      | .DROP =>
        .ofExcept st.pop fun (_, st) =>
        .next (ip + 1) st.bumpPc
      | .INT_ADD =>
        .ofExcept st.pop fun (r, st) =>
        .ofExcept st.pop fun (l, st) =>
        .ofExcept (st.push (toI64 (l + r))) fun st =>
        .next (ip + 1) st.bumpPc
      | .INT_SUB =>
        .ofExcept st.pop fun (r, st) =>
        .ofExcept st.pop fun (l, st) =>
        .ofExcept (st.push (toI64 (l - r))) fun st =>
        .next (ip + 1) st.bumpPc
      | .JMP =>
        .next (ip + p + 1) st.bumpPc
      | .INT_JMP_EQ =>
        .ofExcept st.pop fun (r, st) =>
        .ofExcept st.pop fun (l, st) =>
        .next (ip + (if l = r then p else 0) + 1) st.bumpPc
      | .INT_JMP_NEQ =>
        .ofExcept st.pop fun (r, st) =>
        .ofExcept st.pop fun (l, st) =>
        .next (ip + (if l ≠ r then p else 0) + 1) st.bumpPc
      | .INT_JMP_GT =>
        .ofExcept st.pop fun (r, st) =>
        .ofExcept st.pop fun (l, st) =>
        .next (ip + (if l > r then p else 0) + 1) st.bumpPc
      | .INT_JMP_GE =>
        .ofExcept st.pop fun (r, st) =>
        .ofExcept st.pop fun (l, st) =>
        .next (ip + (if l ≥ r then p else 0) + 1) st.bumpPc
      | .INT_JMP_LT =>
        .ofExcept st.pop fun (r, st) =>
        .ofExcept st.pop fun (l, st) =>
        .next (ip + (if l < r then p else 0) + 1) st.bumpPc
      | .INT_JMP_LE =>
        .ofExcept st.pop fun (r, st) =>
        .ofExcept st.pop fun (l, st) =>
        .next (ip + (if l ≤ r then p else 0) + 1) st.bumpPc
      | .FUNCTION_CALL =>
        .ofExcept (rec p st) fun (v, st) =>
        .ofExcept (st.push v) fun st =>
        .next (ip + 1) st.bumpPc
      | .PUSH_FROM_VAR =>
        let i := (args : Int) + p
        if 0 ≤ i ∧ i.toNat < st.mem.length then
          .ofExcept (st.push (st.mem.getD i.toNat 0)) fun st =>
          .next (ip + 1) st.bumpPc
        else
          .err (.ub "variable access out of bounds") st
      | .POP_INTO_VAR =>
        .ofExcept st.pop fun (v, st) =>
        let i := (args : Int) + p
        if 0 ≤ i ∧ i.toNat < st.mem.length then
          .next (ip + 1) ({ st with mem := st.mem.set i.toNat v }).bumpPc
        else
          .err (.ub "variable access out of bounds") st
      | .FUNCTION_RETURN =>
        .ofExcept st.peek fun v =>
        .ret v (st.restore args)
      | .PRIMITIVE_CALL =>
        if 0 ≤ p ∧ p.toNat < env.primitives.length then
          .ofExcept ((env.primitives.getD p.toNat .print_stack).apply st) fun st =>
          .next (ip + 1) st.bumpPc
        else
          .err (.ub "primitive index out of range") st
      | _ =>
        .err .assertFailed st
  else
    .err (.ub "instruction fetch out of bounds") st

/-- The two entry points of the revision-A engine. -/
inductive ReqA
  | callF (idx : Int)
  | loopF (fn : SymFunctionSpec) (args : Nat) (ip : Int)

/-- Revision A's `ExecutionContext::interpret`, fuelled.  A `callF`
executes the inline JIT prefix of lines 186–238: with a compiled address
and `passParam`, pop and pass 0–3 arguments (any larger arity prints a
message and returns the untouched `result = 0`); with a compiled address
and the stack convention, invoke the entry with `(this, functionIndex)`.
Without a compiled address, record `args = stackPointer_ - nargs`, bump
the stack pointer over `nregs` uninitialised locals and loop. -/
def interpA (env : SymEnv) :
    Nat → ReqA → ExecState → Except (Err × ExecState) (StackElement × ExecState)
  | 0, _, st => .error (.outOfFuel, st)
  | fuel + 1, .callF idx, st =>
    match getFunctionB env idx st with
    | .error e => .error e
    | .ok fn =>
      match getJitAddressB env idx with
      | some entry =>
        if env.passParam then
          match fn.nargs with
          | 0 => .ok (entry.passParamFn [], st)
          | 1 => do
            let (p1, st) ← st.pop
            .ok (entry.passParamFn [p1], st)
          | 2 => do
            let (p2, st) ← st.pop
            let (p1, st) ← st.pop
            .ok (entry.passParamFn [p1, p2], st)
          | 3 => do
            let (p3, st) ← st.pop
            let (p2, st) ← st.pop
            let (p1, st) ← st.pop
            .ok (entry.passParamFn [p1, p2, p3], st)
          | _ + 4 => .ok (0, st)
        else
          entry.stackFn st
      | none =>
        if st.sp < fn.nargs then
          .error (.ub "args pointer below the stack base", st)
        else
          match st.bumpSp fn.nregs with
          | .error e => .error e
          | .ok st' => interpA env fuel (.loopF fn (st.sp - fn.nargs) 0) st'
  | fuel + 1, .loopF fn args ip, st =>
    match stepA env (fun idx st => interpA env fuel (.callF idx) st) fn args ip st with
    | .err e st' => .error (e, st')
    | .ret v st' => .ok (v, st')
    | .next ip' st' => interpA env fuel (.loopF fn args ip') st'

/-- `ExecutionContext::interpret(functionIndex)` (revision A). -/
def interpretA (env : SymEnv) (fuel : Nat) (idx : Int) (st : ExecState) :
    Except (Err × ExecState) (StackElement × ExecState) :=
  interpA env fuel (.callF idx) st

/-- `ExecutionContext::duplicate` (revision B, `core.cpp` lines 728–730):
the body is an unimplemented `// TODO` — the context is left unchanged.
The `DUPLICATE` case of `interpretFunction` (lines 558–560) is the same
`TODO` no-op. -/
def ExecutionContext.duplicate (st : ExecState) : ExecState := st

/-- `ExecutionContext::doDuplicate` (revision C, lines 1167–1169):
`push(stack_.peek())`. -/
def doDuplicate (st : ExecState) : Except (Err × ExecState) ExecState := do
  let v ← st.peek
  st.push v

/-! ## Claims -/

/-- **C5.** For every opcode and every immediate in `[-2^23, 2^23)`,
encoding an `Instruction` from the (opcode, immediate) pair and then
decoding it with `byteCode()` and `parameter()` (sign-extending the 24-bit
immediate) returns the original pair. -/
theorem encode_decode_roundtrip (bc : ByteCode) (p : Int)
    (h1 : -(2 ^ 23) ≤ p) (h2 : p < 2 ^ 23) :
    ByteCode.fromRaw (byteCodeOf (encode bc p)) = some bc ∧
    parameterOf (encode bc p) = p := by
  refine ⟨?_, parameterOf_encode bc p h1 h2⟩
  rw [byteCodeOf_encode]
  exact ByteCode.fromRaw_toRaw bc

/-- Witness for C5 at the concrete pair (`JMP`, −5). -/
theorem encode_decode_roundtrip_witness :
    (-(2 ^ 23) : Int) ≤ -5 ∧ (-5 : Int) < 2 ^ 23 ∧
    (ByteCode.fromRaw (byteCodeOf (encode .JMP (-5))) = some .JMP ∧
      parameterOf (encode .JMP (-5)) = -5) :=
  ⟨by norm_num, by norm_num,
    encode_decode_roundtrip .JMP (-5) (by norm_num) (by norm_num)⟩

/-- `ExecutionContext::interpretFunction` (revision B, lines 530–618) as a
standalone entry: fetch the `FunctionSpec`, record the `args` pointer,
reserve the locals and run the bytecode loop. -/
def interpretFunctionB (env : SymEnv) (fuel : Nat) (idx : Int) (st : ExecState) :
    Except (Err × ExecState) (StackElement × ExecState) :=
  match getFunctionB env idx st with
  | .error e => .error e
  | .ok fn =>
    if st.sp < fn.nargs then
      .error (.ub "args pointer below the stack base", st)
    else
      match st.bumpSp fn.nregs with
      | .error e => .error e
      | .ok st' => interpB env fuel (.loopF fn (st.sp - fn.nargs) 0) st'

/-- **C10.** For every function index at or beyond the compiled-code
table's length — in particular any index before code generation has run —
`getJitAddress` returns null instead of reading the table, and
`callFunction` on that index takes the interpreter path
(`interpretFunction`). -/
theorem getJitAddress_oob_is_null (env : SymEnv) (i : Nat) (fuel : Nat)
    (st : ExecState) (h : env.compiled.length ≤ i) :
    getJitAddressB env (i : Int) = none ∧
    callFunctionB env (fuel + 1) (i : Int) st = interpretFunctionB env fuel (i : Int) st := by
  have hnone : getJitAddressB env (i : Int) = none := by
    unfold getJitAddressB
    rw [if_neg]
    simp only [Int.toNat_natCast]
    omega
  refine ⟨hnone, ?_⟩
  unfold callFunctionB interpB interpretFunctionB
  rw [hnone]

/-- A one-function module with an empty compiled-code table, as a virtual
machine has it before any code generation has run. -/
def envNoJit : SymEnv where
  functions := [⟨"f", 0, 0, [(.FUNCTION_RETURN, 0), (.END_SECTION, 0)]⟩]
  strings := []
  primitives := []
  compiled := []
  jit := false
  passParam := false

/-- Witness for C10: an empty compiled-code table and index 0. -/
theorem getJitAddress_oob_is_null_witness :
    envNoJit.compiled.length ≤ 0 ∧
    (getJitAddressB envNoJit ((0 : Nat) : Int) = none ∧
      callFunctionB envNoJit (3 + 1) ((0 : Nat) : Int) ⟨[0, 0], 1, 0⟩ =
        interpretFunctionB envNoJit 3 ((0 : Nat) : Int) ⟨[0, 0], 1, 0⟩) :=
  ⟨Nat.le_refl 0, getJitAddress_oob_is_null envNoJit 0 3 _ (Nat.le_refl 0)⟩

/-- `getFunction` succeeds on any in-range index and returns the table
entry. -/
theorem getFunctionB_ok (env : SymEnv) (idx : Nat) (fn : SymFunctionSpec)
    (st : ExecState) (hlt : idx < env.functions.length)
    (hfn : env.functions.getD idx ⟨"", 0, 0, []⟩ = fn) :
    getFunctionB env (idx : Int) st = .ok fn := by
  unfold getFunctionB
  rw [if_pos]
  · rw [Int.toNat_natCast, hfn]
  · simp only [Int.toNat_natCast]
    omega

/-- Reducing a bind on a successful `Except`. -/
theorem except_bind_ok {ε α β : Type} (a : α) (f : α → Except ε β) :
    (Except.ok a >>= f) = f a := rfl

/-- `ExecutionContext::pop` on a non-empty stack returns the element under
the stack pointer and moves the pointer down. -/
theorem pop_ok (st : ExecState) (h : st.sp ≠ 0) :
    st.pop = .ok (st.mem.getD (st.sp - 1) 0, { st with sp := st.sp - 1 }) := by
  unfold ExecState.pop
  rw [if_neg h]

/-- **C6.** `VirtualMachine::run` validates the argument count against the
target `FunctionSpec` before anything else: on a mismatch it raises
`BadFunctionCallException` with the context untouched (no arguments
pushed, no bytecode executed), and when the counts agree no
`BadFunctionCall` error can be produced on any path. -/
theorem run_validates_argument_count :
    (∀ (env : SymEnv) (fuel idx : Nat) (fn : SymFunctionSpec)
        (usrArgs : List StackElement) (st : ExecState),
        idx < env.functions.length →
        env.functions.getD idx ⟨"", 0, 0, []⟩ = fn →
        fn.nargs ≠ usrArgs.length →
        runB env fuel idx usrArgs st =
          .error (.badFunctionCall (fn.name ++ " - Got " ++ toString usrArgs.length
            ++ " arguments, expected " ++ toString fn.nargs), st)) ∧
    (∀ (env : SymEnv) (fuel idx : Nat) (fn : SymFunctionSpec)
        (usrArgs : List StackElement) (st : ExecState),
        idx < env.functions.length →
        env.functions.getD idx ⟨"", 0, 0, []⟩ = fn →
        fn.nargs = usrArgs.length →
        ∀ msg st', runB env fuel idx usrArgs st ≠ .error (.badFunctionCall msg, st')) := by
  constructor
  · intro env fuel idx fn usrArgs st hlt hfn hne
    unfold runB
    simp only [getFunctionB_ok env idx fn st hlt hfn, hne, if_pos, ne_eq,
      not_false_eq_true]
  · intro env fuel idx fn usrArgs st hlt hfn heq msg st'
    unfold runB
    simp only [getFunctionB_ok env idx fn st hlt hfn, heq, ne_eq, not_true_eq_false,
      if_false, ite_false]
    split
    · simp
    · split <;> simp

/-- A one-function module (`f(x) { return 3; }` in effect) executed purely
by the interpreter. -/
def envRun : SymEnv where
  functions := [⟨"f", 1, 0,
    [(.INT_PUSH_CONSTANT, 3), (.FUNCTION_RETURN, 0), (.END_SECTION, 0)]⟩]
  strings := []
  primitives := []
  compiled := []
  jit := false
  passParam := false

/-- Witness for C6: calling `f` (one parameter) with no arguments raises
`BadFunctionCall` and leaves the context untouched; calling it with one
argument never produces a `BadFunctionCall` error. -/
theorem run_validates_argument_count_witness :
    (0 < envRun.functions.length ∧
      envRun.functions.getD 0 ⟨"", 0, 0, []⟩ =
        ⟨"f", 1, 0, [(.INT_PUSH_CONSTANT, 3), (.FUNCTION_RETURN, 0), (.END_SECTION, 0)]⟩ ∧
      (1 : Nat) ≠ ([] : List StackElement).length) ∧
    runB envRun 9 0 [] ⟨[0, 0, 0, 0], 0, 0⟩ =
      .error (.badFunctionCall "f - Got 0 arguments, expected 1", ⟨[0, 0, 0, 0], 0, 0⟩) ∧
    runB envRun 9 0 [42] ⟨[0, 0, 0, 0], 0, 0⟩ ≠
      .error (.badFunctionCall "boom", ⟨[0, 0, 0, 0], 0, 0⟩) :=
  ⟨⟨by decide, rfl, by decide⟩,
    run_validates_argument_count.1 envRun 9 0 _ [] _ (by decide) rfl (by decide),
    run_validates_argument_count.2 envRun 9 0
      ⟨"f", 1, 0, [(.INT_PUSH_CONSTANT, 3), (.FUNCTION_RETURN, 0), (.END_SECTION, 0)]⟩
      [42] _ (by decide) rfl (by decide) "boom" _⟩

/-- **C3 (amended).** `VirtualMachine::run` resets the execution context —
stack pointer to the stack base, program counter zeroed — on the
normal-return path.  (As stated the claim also covered the fatal-error
path, which the code does not reset; see the counterexample.) -/
theorem run_resets_on_normal_return (env : SymEnv) (fuel idx : Nat)
    (usrArgs : List StackElement) (st : ExecState) (v : StackElement)
    (st' : ExecState) (h : runB env fuel idx usrArgs st = .ok (v, st')) :
    st'.sp = 0 ∧ st'.pc = 0 := by
  unfold runB at h
  repeat' split at h
  all_goals simp_all [ExecState.reset]
  obtain ⟨-, h2⟩ := h
  subst h2
  exact ⟨rfl, rfl⟩

/-- Witness for C3's amended theorem: a successful run ends with the
context reset. -/
theorem run_resets_on_normal_return_witness :
    runB envRun 9 0 [42] ⟨[0, 0, 0, 0], 0, 0⟩ = .ok (3, ⟨[42, 3, 0, 0], 0, 0⟩) ∧
    (⟨[42, 3, 0, 0], 0, 0⟩ : ExecState).sp = 0 ∧
    (⟨[42, 3, 0, 0], 0, 0⟩ : ExecState).pc = 0 :=
  ⟨rfl, run_resets_on_normal_return envRun 9 0 [42] ⟨[0, 0, 0, 0], 0, 0⟩ 3
    ⟨[42, 3, 0, 0], 0, 0⟩ rfl⟩

/-- A module whose single function takes eight arguments and carries a
compiled entry, under the register calling convention: invoking it drives
`callJitFunctionWithPassParam` into its `default:` throw. -/
def envFault : SymEnv where
  functions := [⟨"g", 8, 0, [(.END_SECTION, 0)]⟩]
  strings := []
  primitives := []
  compiled := [some ⟨fun _ => 0, fun st => .ok (0, st)⟩]
  jit := true
  passParam := true

/-- Counterexample to C3 as stated: on the fatal-error path the exception
propagates out of `run` with the eight pushed arguments still on the
stack — the context is *not* reset before control returns to the
embedder. -/
theorem run_does_not_reset_on_fault :
    runB envFault 9 0 [1, 2, 3, 4, 5, 6, 7, 8] ⟨[0, 0, 0, 0, 0, 0, 0, 0, 0, 0], 0, 0⟩ =
      .error (.exec (.fault "Interpreter to JIT transition failed: too many arguments"),
        ⟨[8, 7, 6, 5, 4, 3, 2, 1, 0, 0], 8, 0⟩) ∧
    (⟨[8, 7, 6, 5, 4, 3, 2, 1, 0, 0], 8, 0⟩ : ExecState).sp ≠ 0 :=
  ⟨rfl, by decide⟩

/-- **C7 (amended).** Under the register calling convention (`passParam`)
with a compiled entry present, `callFunction` reaches
`callJitFunctionWithPassParam`, which pops exactly `nargs` values off the
operand stack — the last-pushed value popped first, becoming the rightmost
positional parameter — and invokes the compiled entry with them; this
covers arities 0–7, and a callee of any larger arity makes the bridge
throw the fatal "Interpreter to JIT transition failed: too many arguments"
error.  (As stated the claim also covered the oldest revision's inline
pass-param dispatch, which instead of erroring silently returns `0` for
arities above 3 without popping; see the counterexample.) -/
theorem passParam_bridge :
    (∀ (env : SymEnv) (fuel idx : Nat) (fn : SymFunctionSpec) (entry : JitEntry)
        (st : ExecState),
      env.jit = true → env.passParam = true →
      idx < env.functions.length →
      env.functions.getD idx ⟨"", 0, 0, []⟩ = fn →
      getJitAddressB env (idx : Int) = some entry →
      fn.nargs ≤ 7 → fn.nargs ≤ st.sp →
      callFunctionB env (fuel + 1) (idx : Int) st =
        .ok (entry.passParamFn
              ((List.range fn.nargs).map fun j => st.mem.getD (st.sp - fn.nargs + j) 0),
          { st with sp := st.sp - fn.nargs })) ∧
    (∀ (env : SymEnv) (fuel idx : Nat) (fn : SymFunctionSpec) (entry : JitEntry)
        (st : ExecState),
      env.jit = true → env.passParam = true →
      idx < env.functions.length →
      env.functions.getD idx ⟨"", 0, 0, []⟩ = fn →
      getJitAddressB env (idx : Int) = some entry →
      8 ≤ fn.nargs →
      callFunctionB env (fuel + 1) (idx : Int) st =
        .error (.fault "Interpreter to JIT transition failed: too many arguments", st)) := by
  constructor
  · intro env fuel idx fn entry st hjit hpp hlt hfn hentry hn7 hsp
    unfold callFunctionB interpB
    simp only [hentry]
    unfold callJitFunctionB
    rw [if_neg (by simp [hjit]), if_pos hpp]
    unfold callJitFunctionWithPassParamB
    rw [if_neg (by simp [hpp])]
    simp only [getFunctionB_ok env idx fn st hlt hfn, hentry]
    obtain ⟨nm, na, nr, ins⟩ := fn
    simp only at hn7 hsp ⊢
    interval_cases na
    · simp
    · rw [pop_ok st (by omega)]
      simp only [except_bind_ok]
      simp [show List.range 1 = [0] from rfl]
    · rw [pop_ok st (by omega)]
      simp only [except_bind_ok]
      rw [pop_ok _ (by simp; omega)]
      simp only [except_bind_ok]
      simp only [show List.range 2 = [0, 1] from rfl, List.map_cons, List.map_nil]
      rw [show st.sp - 1 - 1 = st.sp - 2 from by omega,
        Nat.add_zero,
        show st.sp - 2 + 1 = st.sp - 1 from by omega]
    · rw [pop_ok st (by omega)]
      simp only [except_bind_ok]
      rw [pop_ok _ (by simp; omega)]
      simp only [except_bind_ok]
      rw [pop_ok _ (by simp; omega)]
      simp only [except_bind_ok]
      simp only [show List.range 3 = [0, 1, 2] from rfl, List.map_cons, List.map_nil]
      rw [show st.sp - 1 - 1 = st.sp - 2 from by omega,
        show st.sp - 2 - 1 = st.sp - 3 from by omega,
        Nat.add_zero,
        show st.sp - 3 + 1 = st.sp - 2 from by omega,
        show st.sp - 3 + 2 = st.sp - 1 from by omega]
    · rw [pop_ok st (by omega)]
      simp only [except_bind_ok]
      rw [pop_ok _ (by simp; omega)]
      simp only [except_bind_ok]
      rw [pop_ok _ (by simp; omega)]
      simp only [except_bind_ok]
      rw [pop_ok _ (by simp; omega)]
      simp only [except_bind_ok]
      simp only [show List.range 4 = [0, 1, 2, 3] from rfl, List.map_cons, List.map_nil]
      rw [show st.sp - 1 - 1 = st.sp - 2 from by omega,
        show st.sp - 2 - 1 = st.sp - 3 from by omega,
        show st.sp - 3 - 1 = st.sp - 4 from by omega,
        Nat.add_zero,
        show st.sp - 4 + 1 = st.sp - 3 from by omega,
        show st.sp - 4 + 2 = st.sp - 2 from by omega,
        show st.sp - 4 + 3 = st.sp - 1 from by omega]
    · rw [pop_ok st (by omega)]
      simp only [except_bind_ok]
      rw [pop_ok _ (by simp; omega)]
      simp only [except_bind_ok]
      rw [pop_ok _ (by simp; omega)]
      simp only [except_bind_ok]
      rw [pop_ok _ (by simp; omega)]
      simp only [except_bind_ok]
      rw [pop_ok _ (by simp; omega)]
      simp only [except_bind_ok]
      simp only [show List.range 5 = [0, 1, 2, 3, 4] from rfl, List.map_cons, List.map_nil]
      rw [show st.sp - 1 - 1 = st.sp - 2 from by omega,
        show st.sp - 2 - 1 = st.sp - 3 from by omega,
        show st.sp - 3 - 1 = st.sp - 4 from by omega,
        show st.sp - 4 - 1 = st.sp - 5 from by omega,
        Nat.add_zero,
        show st.sp - 5 + 1 = st.sp - 4 from by omega,
        show st.sp - 5 + 2 = st.sp - 3 from by omega,
        show st.sp - 5 + 3 = st.sp - 2 from by omega,
        show st.sp - 5 + 4 = st.sp - 1 from by omega]
    · rw [pop_ok st (by omega)]
      simp only [except_bind_ok]
      rw [pop_ok _ (by simp; omega)]
      simp only [except_bind_ok]
      rw [pop_ok _ (by simp; omega)]
      simp only [except_bind_ok]
      rw [pop_ok _ (by simp; omega)]
      simp only [except_bind_ok]
      rw [pop_ok _ (by simp; omega)]
      simp only [except_bind_ok]
      rw [pop_ok _ (by simp; omega)]
      simp only [except_bind_ok]
      simp only [show List.range 6 = [0, 1, 2, 3, 4, 5] from rfl, List.map_cons, List.map_nil]
      rw [show st.sp - 1 - 1 = st.sp - 2 from by omega,
        show st.sp - 2 - 1 = st.sp - 3 from by omega,
        show st.sp - 3 - 1 = st.sp - 4 from by omega,
        show st.sp - 4 - 1 = st.sp - 5 from by omega,
        show st.sp - 5 - 1 = st.sp - 6 from by omega,
        Nat.add_zero,
        show st.sp - 6 + 1 = st.sp - 5 from by omega,
        show st.sp - 6 + 2 = st.sp - 4 from by omega,
        show st.sp - 6 + 3 = st.sp - 3 from by omega,
        show st.sp - 6 + 4 = st.sp - 2 from by omega,
        show st.sp - 6 + 5 = st.sp - 1 from by omega]
    · rw [pop_ok st (by omega)]
      simp only [except_bind_ok]
      rw [pop_ok _ (by simp; omega)]
      simp only [except_bind_ok]
      rw [pop_ok _ (by simp; omega)]
      simp only [except_bind_ok]
      rw [pop_ok _ (by simp; omega)]
      simp only [except_bind_ok]
      rw [pop_ok _ (by simp; omega)]
      simp only [except_bind_ok]
      rw [pop_ok _ (by simp; omega)]
      simp only [except_bind_ok]
      rw [pop_ok _ (by simp; omega)]
      simp only [except_bind_ok]
      simp only [show List.range 7 = [0, 1, 2, 3, 4, 5, 6] from rfl, List.map_cons, List.map_nil]
      rw [show st.sp - 1 - 1 = st.sp - 2 from by omega,
        show st.sp - 2 - 1 = st.sp - 3 from by omega,
        show st.sp - 3 - 1 = st.sp - 4 from by omega,
        show st.sp - 4 - 1 = st.sp - 5 from by omega,
        show st.sp - 5 - 1 = st.sp - 6 from by omega,
        show st.sp - 6 - 1 = st.sp - 7 from by omega,
        Nat.add_zero,
        show st.sp - 7 + 1 = st.sp - 6 from by omega,
        show st.sp - 7 + 2 = st.sp - 5 from by omega,
        show st.sp - 7 + 3 = st.sp - 4 from by omega,
        show st.sp - 7 + 4 = st.sp - 3 from by omega,
        show st.sp - 7 + 5 = st.sp - 2 from by omega,
        show st.sp - 7 + 6 = st.sp - 1 from by omega]
  · intro env fuel idx fn entry st hjit hpp hlt hfn hentry hn8
    unfold callFunctionB interpB
    simp only [hentry]
    unfold callJitFunctionB
    rw [if_neg (by simp [hjit]), if_pos hpp]
    unfold callJitFunctionWithPassParamB
    rw [if_neg (by simp [hpp])]
    simp only [getFunctionB_ok env idx fn st hlt hfn, hentry]
    obtain ⟨nm, na, nr, ins⟩ := fn
    simp only at hn8 ⊢
    obtain ⟨m, rfl⟩ : ∃ m, na = m + 8 := ⟨na - 8, by omega⟩
    rfl

/-- A two-argument function with a compiled entry that subtracts its
second parameter from its first — the result tells the parameter order
apart. -/
def entryW : JitEntry := ⟨fun ps => ps.headD 0 - ps.getD 1 0, fun st => .ok (0, st)⟩

def envBridge : SymEnv where
  functions := [⟨"h", 2, 0, [(.END_SECTION, 0)]⟩]
  strings := []
  primitives := []
  compiled := [some entryW]
  jit := true
  passParam := true

/-- Witness for C7's amended theorem: with `10` pushed first and `3` on
top, the bridge pops both and invokes the entry as `f(10, 3) = 7` — the
last-pushed value became the rightmost parameter; and the eight-argument
callee of `envFault` makes the bridge throw. -/
theorem passParam_bridge_witness :
    (envBridge.jit = true ∧ envBridge.passParam = true ∧
      0 < envBridge.functions.length ∧
      getJitAddressB envBridge ((0 : Nat) : Int) = some entryW ∧
      (2 : Nat) ≤ 7 ∧ (2 : Nat) ≤ (⟨[10, 3, 0, 0], 2, 0⟩ : ExecState).sp) ∧
    callFunctionB envBridge (5 + 1) ((0 : Nat) : Int) ⟨[10, 3, 0, 0], 2, 0⟩ =
      .ok (7, ⟨[10, 3, 0, 0], 0, 0⟩) ∧
    callFunctionB envFault (5 + 1) ((0 : Nat) : Int) ⟨[0, 0, 0, 0, 0, 0, 0, 0], 8, 0⟩ =
      .error (.fault "Interpreter to JIT transition failed: too many arguments",
        ⟨[0, 0, 0, 0, 0, 0, 0, 0], 8, 0⟩) :=
  ⟨⟨rfl, rfl, by decide, rfl, by decide, by decide⟩,
    (passParam_bridge.1 envBridge 5 0 ⟨"h", 2, 0, [(.END_SECTION, 0)]⟩ entryW
      ⟨[10, 3, 0, 0], 2, 0⟩ rfl rfl (by decide) rfl rfl (by decide) (by decide)).trans rfl,
    passParam_bridge.2 envFault 5 0 ⟨"g", 8, 0, [(.END_SECTION, 0)]⟩
      ⟨fun _ => 0, fun st => .ok (0, st)⟩ ⟨[0, 0, 0, 0, 0, 0, 0, 0], 8, 0⟩
      rfl rfl (by decide) rfl rfl (by decide)⟩

/-- A four-argument function with a compiled entry (which would return
`99`), under the register calling convention, for the oldest revision's
inline dispatch. -/
def envOldBridge : SymEnv where
  functions := [⟨"q", 4, 0, [(.END_SECTION, 0)]⟩]
  strings := []
  primitives := []
  compiled := [some ⟨fun _ => 99, fun st => .ok (99, st)⟩]
  jit := true
  passParam := true

/-- Counterexample to C7 as stated: the oldest revision's inline
pass-param `switch` (`core.cpp` lines 193–228) supports arities 0–3 only,
and for an arity-4 callee its `default:` case just prints a message and
breaks — `interpret` returns the untouched `result = 0` normally: no
"too many arguments" error is raised, nothing is popped (the four
arguments stay on the stack), and the compiled entry (which would return
`99`) is never invoked. -/
theorem passParam_four_args_silent :
    interpretA envOldBridge 5 0 ⟨[1, 2, 3, 4], 4, 0⟩ = .ok (0, ⟨[1, 2, 3, 4], 4, 0⟩) ∧
    (0 : StackElement) ≠ 99 :=
  ⟨rfl, by decide⟩

/-- Unfolding one iteration of revision C's interpreter loop. -/
theorem loopC_succ (env : EnvC) (fuel : Nat) (fn : FunctionSpec) (args : Nat)
    (ip : Int) (st : ExecState) :
    loopC env (fuel + 1) fn args ip st =
      match stepC env (fun idx st => interpC env fuel (.call idx) st) fn args ip st with
      | .err e st' => .error (e, st')
      | .ret v st' => .ok (v, st')
      | .next ip' st' => loopC env fuel fn args ip' st' := rfl

/-- Writing one stack slot leaves every other slot unchanged. -/
theorem getD_set_ne (l : List Int) (j i : Nat) (v : Int) (h : i ≠ j) :
    (l.set j v).getD i 0 = l.getD i 0 := by
  simp [List.getD_eq_getElem?_getD, List.getElem?_set_ne (Ne.symm h)]

/-- **C9 (amended).** In the current interpreter (revision C's
`doDuplicate`), executing `DUPLICATE` pushes a second copy of the top
value — stack effect `v — v v` — leaving every slot below the old stack
pointer unchanged.  (As stated the claim also covered revision B's
`interpretFunction`, whose `DUPLICATE` case is an unimplemented `TODO`
no-op; see the counterexample.) -/
theorem doDuplicate_pushes_top (env : EnvC) (fuel : Nat) (fn : FunctionSpec)
    (args : Nat) (ip : Int) (st : ExecState)
    (hip : 0 ≤ ip) (hlt : ip.toNat < fn.instructions.length)
    (hinstr : fn.instructions.getD ip.toNat 0 = encode .DUPLICATE 0)
    (hsp : st.sp ≠ 0) (hcap : st.sp < st.mem.length) :
    loopC env (fuel + 1) fn args ip st =
      loopC env fuel fn args (ip + 1)
        ⟨st.mem.set st.sp (st.mem.getD (st.sp - 1) 0), st.sp + 1, st.pc + 1⟩ ∧
    (st.mem.set st.sp (st.mem.getD (st.sp - 1) 0)).getD st.sp 0 =
      st.mem.getD (st.sp - 1) 0 ∧
    ∀ i, i < st.sp →
      (st.mem.set st.sp (st.mem.getD (st.sp - 1) 0)).getD i 0 = st.mem.getD i 0 := by
  refine ⟨?_, ?_, ?_⟩
  · rw [loopC_succ]
    have hstep : stepC env (fun idx st => interpC env fuel (.call idx) st) fn args ip st =
        .next (ip + 1) ⟨st.mem.set st.sp (st.mem.getD (st.sp - 1) 0), st.sp + 1, st.pc + 1⟩ := by
      simp only [stepC, hinstr]
      rw [if_pos ⟨hip, hlt⟩, if_neg (by decide)]
      simp only [show ByteCode.fromRaw (byteCodeOf (encode .DUPLICATE 0)) = some .DUPLICATE
        from rfl]
      simp only [ExecState.peek, ExecState.push, StepC.ofExcept, ExecState.bumpPc]
      rw [if_neg hsp]
      simp [hcap]
    rw [hstep]
  · simp [List.getD_eq_getElem?_getD, List.getElem?_set_eq_of_lt _ hcap]
  · intro i hi
    exact getD_set_ne _ _ _ _ (by omega)

/-- The `DUPLICATE; ADD; RETURN` body under revision C's raw encoding. -/
def fnDupC : FunctionSpec :=
  ⟨"d", 1, 0, [encode .DUPLICATE 0, encode .ADD 0, encode .FUNCTION_RETURN 0, 0]⟩

def envDupC : EnvC := ⟨[fnDupC], [], [], false⟩

/-- Witness for C9's amended theorem at a concrete state: duplicating on
`[7, 5 | …]` (stack pointer 2). -/
theorem doDuplicate_pushes_top_witness :
    ((0 : Int) ≤ 0 ∧ (0 : Int).toNat < fnDupC.instructions.length ∧
      fnDupC.instructions.getD (0 : Int).toNat 0 = encode .DUPLICATE 0 ∧
      (⟨[7, 5, 0, 0], 2, 0⟩ : ExecState).sp ≠ 0 ∧
      (⟨[7, 5, 0, 0], 2, 0⟩ : ExecState).sp < (⟨[7, 5, 0, 0], 2, 0⟩ : ExecState).mem.length) ∧
    (loopC envDupC (3 + 1) fnDupC 1 0 ⟨[7, 5, 0, 0], 2, 0⟩ =
        loopC envDupC 3 fnDupC 1 (0 + 1)
          ⟨([7, 5, 0, 0] : List Int).set 2 (([7, 5, 0, 0] : List Int).getD 1 0), 2 + 1, 0 + 1⟩ ∧
      (([7, 5, 0, 0] : List Int).set 2 (([7, 5, 0, 0] : List Int).getD 1 0)).getD 2 0 =
        ([7, 5, 0, 0] : List Int).getD 1 0 ∧
      ∀ i, i < 2 →
        (([7, 5, 0, 0] : List Int).set 2 (([7, 5, 0, 0] : List Int).getD 1 0)).getD i 0 =
          ([7, 5, 0, 0] : List Int).getD i 0) :=
  ⟨⟨by decide, by decide, by decide, by decide, by decide⟩,
    doDuplicate_pushes_top envDupC 3 fnDupC 1 0 ⟨[7, 5, 0, 0], 2, 0⟩
      (by decide) (by decide) (by decide) (by decide) (by decide)⟩

/-- The `DUPLICATE; INT_ADD; RETURN` body under the revision-B symbolic
bytecodes. -/
def envDupB : SymEnv where
  functions := [⟨"d", 1, 0,
    [(.DUPLICATE, 0), (.INT_ADD, 0), (.FUNCTION_RETURN, 0), (.END_SECTION, 0)]⟩]
  strings := []
  primitives := []
  compiled := []
  jit := false
  passParam := false

/-- Counterexample to C9 as stated: revision B's `DUPLICATE` is a no-op
(`ExecutionContext::duplicate` is an empty `TODO`, and the dispatch case
does not even call it), so the identical `dup; add; return` program run on
argument `5` yields `12` (adding `5` to the stale `7` under it) in
revision B where the duplicate-semantics of the claim — exhibited by
revision C on the same stack — yields `10`. -/
theorem duplicate_noop_in_revB :
    ExecutionContext.duplicate ⟨[5, 0], 1, 0⟩ = ⟨[5, 0], 1, 0⟩ ∧
    (⟨[5, 0], 1, 0⟩ : ExecState) ≠ ⟨[5, 5], 2, 0⟩ ∧
    callFunctionB envDupB 9 0 ⟨[7, 5, 0, 0], 2, 0⟩ = .ok (12, ⟨[12, 5, 0, 0], 1, 2⟩) ∧
    interpretC envDupC 9 0 ⟨[7, 5, 0, 0], 2, 0⟩ = .ok (10, ⟨[7, 10, 5, 0], 1, 2⟩) ∧
    (12 : StackElement) ≠ 10 :=
  ⟨rfl, by decide, rfl, rfl, by decide⟩

/-- **C1 (amended).** In the current interpreter (revision C), a function
whose bytecode execution falls through to the `END_SECTION` sentinel
without executing `FUNCTION_RETURN` fails the run with the fatal
`"Reached end of function"` control-flow error.  (As stated the claim also
covered the oldest revision's `interpret`, which on reaching the sentinel
returns the value under the stack pointer normally; see the
counterexample.) -/
theorem end_section_is_fatal (env : EnvC) (fuel : Nat) (fn : FunctionSpec)
    (args : Nat) (ip : Int) (st : ExecState)
    (hip : 0 ≤ ip) (hlt : ip.toNat < fn.instructions.length)
    (hinstr : fn.instructions.getD ip.toNat 0 = 0) :
    loopC env (fuel + 1) fn args ip st =
      .error (.fault "Reached end of function", st) := by
  rw [loopC_succ]
  have hstep : stepC env (fun idx st => interpC env fuel (.call idx) st) fn args ip st =
      .err (.fault "Reached end of function") st := by
    simp only [stepC, hinstr]
    rw [if_pos ⟨hip, hlt⟩]
    simp only [if_true]
  rw [hstep]

/-- Witness for C1's amended theorem: a function body that is nothing but
the sentinel word. -/
theorem end_section_is_fatal_witness :
    ((0 : Int) ≤ 0 ∧
      (0 : Int).toNat < ([0] : List Nat).length ∧
      ([0] : List Nat).getD (0 : Int).toNat 0 = 0) ∧
    loopC ⟨[⟨"e", 0, 0, [0]⟩], [], [], false⟩ (2 + 1) ⟨"e", 0, 0, [0]⟩ 0 0 ⟨[0, 0], 0, 0⟩ =
      .error (.fault "Reached end of function", ⟨[0, 0], 0, 0⟩) :=
  ⟨⟨by decide, by decide, by decide⟩,
    end_section_is_fatal ⟨[⟨"e", 0, 0, [0]⟩], [], [], false⟩ 2 ⟨"e", 0, 0, [0]⟩ 0 0
      ⟨[0, 0], 0, 0⟩ (by decide) (by decide) (by decide)⟩

/-- A function that pushes `7` and then falls through to the sentinel,
for the oldest revision. -/
def envEndA : SymEnv where
  functions := [⟨"t", 0, 0, [(.INT_PUSH_CONSTANT, 7), (.END_SECTION, 0)]⟩]
  strings := []
  primitives := []
  compiled := []
  jit := false
  passParam := false

/-- Counterexample to C1 as stated: the oldest revision's `interpret`
(`core.cpp` lines 245–320) exits its `while` loop when the sentinel is
reached and returns `*(stackPointer_ - 1)` — here `7` — as a normal,
successful result instead of failing the run. -/
theorem end_section_falls_through_in_revA :
    interpretA envEndA 9 0 ⟨[0, 0], 0, 0⟩ = .ok (7, ⟨[7, 0], 1, 1⟩) := rfl

/-- **C2 (amended).** Revision C's `doDiv` pops the right then the left
operand (as 32-bit integers): when the divisor is non-zero (and the
division is not the overflowing `INT_MIN / -1`) it pushes the truncated
quotient `l / r`; when the divisor is zero the division is executed
unchecked — C++ undefined behaviour, in practice a hardware trap that
kills the process — not a raised `RuntimeFault`.  (The claim as stated
called the divide-by-zero outcome a `RuntimeFault` failing the current
run; the code throws nothing there — see the counterexample.) -/
theorem doDiv_semantics (env : EnvC) (fuel : Nat) (fn : FunctionSpec)
    (args : Nat) (ip : Int) (st : ExecState)
    (hip : 0 ≤ ip) (hlt : ip.toNat < fn.instructions.length)
    (hinstr : fn.instructions.getD ip.toNat 0 = encode .DIV 0)
    (hsp : 2 ≤ st.sp) (hsple : st.sp ≤ st.mem.length) :
    (toI32 (st.mem.getD (st.sp - 1) 0) = 0 →
      loopC env (fuel + 1) fn args ip st =
        .error (.ub "integer division by zero", ⟨st.mem, st.sp - 2, st.pc⟩)) ∧
    (toI32 (st.mem.getD (st.sp - 1) 0) ≠ 0 →
      ¬(toI32 (st.mem.getD (st.sp - 2) 0) = -(2 ^ 31) ∧
          toI32 (st.mem.getD (st.sp - 1) 0) = -1) →
      loopC env (fuel + 1) fn args ip st =
        loopC env fuel fn args (ip + 1)
          ⟨st.mem.set (st.sp - 2)
              ((toI32 (st.mem.getD (st.sp - 2) 0)).tdiv (toI32 (st.mem.getD (st.sp - 1) 0))),
            st.sp - 1, st.pc + 1⟩) := by
  constructor
  · intro hz
    rw [loopC_succ]
    have hstep : stepC env (fun idx st => interpC env fuel (.call idx) st) fn args ip st =
        .err (.ub "integer division by zero") ⟨st.mem, st.sp - 2, st.pc⟩ := by
      simp only [stepC, hinstr]
      rw [if_pos ⟨hip, hlt⟩, if_neg (by decide)]
      simp only [show ByteCode.fromRaw (byteCodeOf (encode .DIV 0)) = some .DIV from rfl]
      rw [pop_ok st (by omega)]
      simp only [StepC.ofExcept]
      rw [pop_ok _ (by simp; omega)]
      simp only [StepC.ofExcept]
      simp only [show st.sp - 1 - 1 = st.sp - 2 from by omega]
      rw [if_pos hz]
    rw [hstep]
  · intro hz hovf
    rw [loopC_succ]
    have hstep : stepC env (fun idx st => interpC env fuel (.call idx) st) fn args ip st =
        .next (ip + 1)
          ⟨st.mem.set (st.sp - 2)
              ((toI32 (st.mem.getD (st.sp - 2) 0)).tdiv (toI32 (st.mem.getD (st.sp - 1) 0))),
            st.sp - 1, st.pc + 1⟩ := by
      simp only [stepC, hinstr]
      rw [if_pos ⟨hip, hlt⟩, if_neg (by decide)]
      simp only [show ByteCode.fromRaw (byteCodeOf (encode .DIV 0)) = some .DIV from rfl]
      rw [pop_ok st (by omega)]
      simp only [StepC.ofExcept]
      rw [pop_ok _ (by simp; omega)]
      simp only [StepC.ofExcept]
      simp only [show st.sp - 1 - 1 = st.sp - 2 from by omega]
      rw [if_neg hz, if_neg hovf]
      simp only [ExecState.push, StepC.ofExcept, ExecState.bumpPc]
      rw [if_pos (by omega), show st.sp - 2 + 1 = st.sp - 1 from by omega]
    rw [hstep]

/-- A function computing `1 / 0` for the counterexample, and `7 / 2`
for the witness. -/
def fnDiv : FunctionSpec :=
  ⟨"q", 0, 0, [encode .INT_PUSH_CONSTANT 1, encode .INT_PUSH_CONSTANT 0, encode .DIV 0,
    encode .FUNCTION_RETURN 0, 0]⟩

def envDiv : EnvC := ⟨[fnDiv], [], [], false⟩

/-- Witness for C2's amended theorem: dividing by zero at a concrete state
takes the undefined-behaviour exit; `7 / 2` pushes the truncated quotient
`3`. -/
theorem doDiv_semantics_witness :
    ((0 : Int) ≤ 2 ∧ (2 : Int).toNat < fnDiv.instructions.length ∧
      fnDiv.instructions.getD (2 : Int).toNat 0 = encode .DIV 0 ∧
      (2 : Nat) ≤ (⟨[1, 0, 0, 0], 2, 2⟩ : ExecState).sp ∧
      (⟨[1, 0, 0, 0], 2, 2⟩ : ExecState).sp ≤ (⟨[1, 0, 0, 0], 2, 2⟩ : ExecState).mem.length ∧
      toI32 ((⟨[1, 0, 0, 0], 2, 2⟩ : ExecState).mem.getD 1 0) = 0) ∧
    loopC envDiv (5 + 1) fnDiv 0 2 ⟨[1, 0, 0, 0], 2, 2⟩ =
      .error (.ub "integer division by zero", ⟨[1, 0, 0, 0], 0, 2⟩) ∧
    loopC envDiv (5 + 1) fnDiv 0 2 ⟨[7, 2, 0, 0], 2, 2⟩ =
      loopC envDiv 5 fnDiv 0 (2 + 1)
        ⟨([7, 2, 0, 0] : List Int).set 0 ((toI32 7).tdiv (toI32 2)), 1, 3⟩ :=
  ⟨⟨by decide, by decide, by decide, by decide, by decide, by decide⟩,
    (doDiv_semantics envDiv 5 fnDiv 0 2 ⟨[1, 0, 0, 0], 2, 2⟩ (by decide) (by decide)
      (by decide) (by decide) (by decide)).1 (by decide),
    (doDiv_semantics envDiv 5 fnDiv 0 2 ⟨[7, 2, 0, 0], 2, 2⟩ (by decide) (by decide)
      (by decide) (by decide) (by decide)).2 (by decide) (by decide)⟩

/-- Counterexample to C2 as stated: running `1 / 0` ends in the
undefined-behaviour outcome (`ub`, the unchecked C++ division — a crash,
not an exception), which is not a `fault` (`std::runtime_error`) of any
message: no `RuntimeFault` is raised and nothing unwinds to the `run`
boundary. -/
theorem div_by_zero_is_ub_not_fault :
    interpretC envDiv 9 0 ⟨[0, 0, 0, 0], 0, 0⟩ =
      .error (.ub "integer division by zero", ⟨[1, 0, 0, 0], 0, 2⟩) ∧
    ∀ msg, (Err.ub "integer division by zero") ≠ Err.fault msg :=
  ⟨rfl, fun _ h => nomatch h⟩

/-- The comparison carried by each conditional-jump opcode, as a Boolean
predicate on the two 32-bit integer operands (left, right). -/
def jmpPredicate : ByteCode → Option (Int → Int → Bool)
  | .JMP_EQ_EQ => some fun l r => decide (l = r)
  | .JMP_EQ_NEQ => some fun l r => decide (l ≠ r)
  | .JMP_EQ_GT => some fun l r => decide (l > r)
  | .JMP_EQ_GE => some fun l r => decide (l ≥ r)
  | .JMP_EQ_LT => some fun l r => decide (l < r)
  | .JMP_EQ_LE => some fun l r => decide (l ≤ r)
  | _ => none

/-- **C8.** For every conditional-jump opcode `JMP_EQ_*` with offset `d`,
the two integer operands — `l` pushed first (under the top), `r` on top —
are popped regardless of the comparison's outcome; when the predicate
`l op r` holds the instruction pointer advances by `d` relative to the
branch instruction plus the normal post-increment of one, otherwise
execution falls through to the next instruction. -/
theorem jmpCmp_consumes_both (env : EnvC) (fuel : Nat) (fn : FunctionSpec)
    (args : Nat) (ip : Int) (st : ExecState) (bc : ByteCode)
    (pred : Int → Int → Bool) (d : Int)
    (hbc : jmpPredicate bc = some pred)
    (hd1 : -(2 ^ 23) ≤ d) (hd2 : d < 2 ^ 23)
    (hip : 0 ≤ ip) (hlt : ip.toNat < fn.instructions.length)
    (hinstr : fn.instructions.getD ip.toNat 0 = encode bc d)
    (hsp : 2 ≤ st.sp) :
    loopC env (fuel + 1) fn args ip st =
      loopC env fuel fn args
        (if pred (toI32 (st.mem.getD (st.sp - 2) 0)) (toI32 (st.mem.getD (st.sp - 1) 0))
          then ip + d + 1 else ip + 1)
        ⟨st.mem, st.sp - 2, st.pc + 1⟩ := by
  cases bc
  case JMP_EQ_EQ =>
    simp only [jmpPredicate] at hbc
    injection hbc with hp
    subst hp
    beta_reduce
    rw [loopC_succ]
    have hstep : stepC env (fun idx st => interpC env fuel (.call idx) st) fn args ip st =
        .next (ip + (if toI32 (st.mem.getD (st.sp - 2) 0) = toI32 (st.mem.getD (st.sp - 1) 0)
            then d else 0) + 1)
          ⟨st.mem, st.sp - 2, st.pc + 1⟩ := by
      simp only [stepC, hinstr]
      rw [if_pos ⟨hip, hlt⟩,
        if_neg (by have := encode_param_bits d; simp only [encode, ByteCode.toRaw]; omega)]
      rw [byteCodeOf_encode, ByteCode.fromRaw_toRaw]
      simp only [parameterOf_encode _ d hd1 hd2]
      rw [pop_ok st (by omega)]
      simp only [StepC.ofExcept]
      rw [pop_ok _ (by simp; omega)]
      simp only [StepC.ofExcept, ExecState.bumpPc]
      simp only [show st.sp - 1 - 1 = st.sp - 2 from by omega]
    rw [hstep]
    by_cases hc : toI32 (st.mem.getD (st.sp - 2) 0) = toI32 (st.mem.getD (st.sp - 1) 0)
    · rw [if_pos hc, if_pos (decide_eq_true hc)]
    · rw [if_neg hc, if_neg (by rw [decide_eq_false hc]; exact Bool.false_ne_true)]
      simp
  case JMP_EQ_NEQ =>
    simp only [jmpPredicate] at hbc
    injection hbc with hp
    subst hp
    beta_reduce
    rw [loopC_succ]
    have hstep : stepC env (fun idx st => interpC env fuel (.call idx) st) fn args ip st =
        .next (ip + (if toI32 (st.mem.getD (st.sp - 2) 0) ≠ toI32 (st.mem.getD (st.sp - 1) 0)
            then d else 0) + 1)
          ⟨st.mem, st.sp - 2, st.pc + 1⟩ := by
      simp only [stepC, hinstr]
      rw [if_pos ⟨hip, hlt⟩,
        if_neg (by have := encode_param_bits d; simp only [encode, ByteCode.toRaw]; omega)]
      rw [byteCodeOf_encode, ByteCode.fromRaw_toRaw]
      simp only [parameterOf_encode _ d hd1 hd2]
      rw [pop_ok st (by omega)]
      simp only [StepC.ofExcept]
      rw [pop_ok _ (by simp; omega)]
      simp only [StepC.ofExcept, ExecState.bumpPc]
      simp only [show st.sp - 1 - 1 = st.sp - 2 from by omega]
    rw [hstep]
    by_cases hc : toI32 (st.mem.getD (st.sp - 2) 0) ≠ toI32 (st.mem.getD (st.sp - 1) 0)
    · rw [if_pos hc, if_pos (decide_eq_true hc)]
    · rw [if_neg hc, if_neg (by rw [decide_eq_false hc]; exact Bool.false_ne_true)]
      simp
  case JMP_EQ_GT =>
    simp only [jmpPredicate] at hbc
    injection hbc with hp
    subst hp
    beta_reduce
    rw [loopC_succ]
    have hstep : stepC env (fun idx st => interpC env fuel (.call idx) st) fn args ip st =
        .next (ip + (if toI32 (st.mem.getD (st.sp - 2) 0) > toI32 (st.mem.getD (st.sp - 1) 0)
            then d else 0) + 1)
          ⟨st.mem, st.sp - 2, st.pc + 1⟩ := by
      simp only [stepC, hinstr]
      rw [if_pos ⟨hip, hlt⟩,
        if_neg (by have := encode_param_bits d; simp only [encode, ByteCode.toRaw]; omega)]
      rw [byteCodeOf_encode, ByteCode.fromRaw_toRaw]
      simp only [parameterOf_encode _ d hd1 hd2]
      rw [pop_ok st (by omega)]
      simp only [StepC.ofExcept]
      rw [pop_ok _ (by simp; omega)]
      simp only [StepC.ofExcept, ExecState.bumpPc]
      simp only [show st.sp - 1 - 1 = st.sp - 2 from by omega]
    rw [hstep]
    by_cases hc : toI32 (st.mem.getD (st.sp - 2) 0) > toI32 (st.mem.getD (st.sp - 1) 0)
    · rw [if_pos hc, if_pos (decide_eq_true hc)]
    · rw [if_neg hc, if_neg (by rw [decide_eq_false hc]; exact Bool.false_ne_true)]
      simp
  case JMP_EQ_GE =>
    simp only [jmpPredicate] at hbc
    injection hbc with hp
    subst hp
    beta_reduce
    rw [loopC_succ]
    have hstep : stepC env (fun idx st => interpC env fuel (.call idx) st) fn args ip st =
        .next (ip + (if toI32 (st.mem.getD (st.sp - 2) 0) ≥ toI32 (st.mem.getD (st.sp - 1) 0)
            then d else 0) + 1)
          ⟨st.mem, st.sp - 2, st.pc + 1⟩ := by
      simp only [stepC, hinstr]
      rw [if_pos ⟨hip, hlt⟩,
        if_neg (by have := encode_param_bits d; simp only [encode, ByteCode.toRaw]; omega)]
      rw [byteCodeOf_encode, ByteCode.fromRaw_toRaw]
      simp only [parameterOf_encode _ d hd1 hd2]
      rw [pop_ok st (by omega)]
      simp only [StepC.ofExcept]
      rw [pop_ok _ (by simp; omega)]
      simp only [StepC.ofExcept, ExecState.bumpPc]
      simp only [show st.sp - 1 - 1 = st.sp - 2 from by omega]
    rw [hstep]
    by_cases hc : toI32 (st.mem.getD (st.sp - 2) 0) ≥ toI32 (st.mem.getD (st.sp - 1) 0)
    · rw [if_pos hc, if_pos (decide_eq_true hc)]
    · rw [if_neg hc, if_neg (by rw [decide_eq_false hc]; exact Bool.false_ne_true)]
      simp
  case JMP_EQ_LT =>
    simp only [jmpPredicate] at hbc
    injection hbc with hp
    subst hp
    beta_reduce
    rw [loopC_succ]
    have hstep : stepC env (fun idx st => interpC env fuel (.call idx) st) fn args ip st =
        .next (ip + (if toI32 (st.mem.getD (st.sp - 2) 0) < toI32 (st.mem.getD (st.sp - 1) 0)
            then d else 0) + 1)
          ⟨st.mem, st.sp - 2, st.pc + 1⟩ := by
      simp only [stepC, hinstr]
      rw [if_pos ⟨hip, hlt⟩,
        if_neg (by have := encode_param_bits d; simp only [encode, ByteCode.toRaw]; omega)]
      rw [byteCodeOf_encode, ByteCode.fromRaw_toRaw]
      simp only [parameterOf_encode _ d hd1 hd2]
      rw [pop_ok st (by omega)]
      simp only [StepC.ofExcept]
      rw [pop_ok _ (by simp; omega)]
      simp only [StepC.ofExcept, ExecState.bumpPc]
      simp only [show st.sp - 1 - 1 = st.sp - 2 from by omega]
    rw [hstep]
    by_cases hc : toI32 (st.mem.getD (st.sp - 2) 0) < toI32 (st.mem.getD (st.sp - 1) 0)
    · rw [if_pos hc, if_pos (decide_eq_true hc)]
    · rw [if_neg hc, if_neg (by rw [decide_eq_false hc]; exact Bool.false_ne_true)]
      simp
  case JMP_EQ_LE =>
    simp only [jmpPredicate] at hbc
    injection hbc with hp
    subst hp
    beta_reduce
    rw [loopC_succ]
    have hstep : stepC env (fun idx st => interpC env fuel (.call idx) st) fn args ip st =
        .next (ip + (if toI32 (st.mem.getD (st.sp - 2) 0) ≤ toI32 (st.mem.getD (st.sp - 1) 0)
            then d else 0) + 1)
          ⟨st.mem, st.sp - 2, st.pc + 1⟩ := by
      simp only [stepC, hinstr]
      rw [if_pos ⟨hip, hlt⟩,
        if_neg (by have := encode_param_bits d; simp only [encode, ByteCode.toRaw]; omega)]
      rw [byteCodeOf_encode, ByteCode.fromRaw_toRaw]
      simp only [parameterOf_encode _ d hd1 hd2]
      rw [pop_ok st (by omega)]
      simp only [StepC.ofExcept]
      rw [pop_ok _ (by simp; omega)]
      simp only [StepC.ofExcept, ExecState.bumpPc]
      simp only [show st.sp - 1 - 1 = st.sp - 2 from by omega]
    rw [hstep]
    by_cases hc : toI32 (st.mem.getD (st.sp - 2) 0) ≤ toI32 (st.mem.getD (st.sp - 1) 0)
    · rw [if_pos hc, if_pos (decide_eq_true hc)]
    · rw [if_neg hc, if_neg (by rw [decide_eq_false hc]; exact Bool.false_ne_true)]
      simp
  all_goals simp [jmpPredicate] at hbc

/-- Witness for C8 at the concrete opcode `JMP_EQ_LT` with offset 2 and
operands `1 < 5` (taken branch). -/
def fnJmp : FunctionSpec :=
  ⟨"j", 0, 0, [encode .JMP_EQ_LT 2, 0, 0, encode .FUNCTION_RETURN 0, 0]⟩

def envJmp : EnvC := ⟨[fnJmp], [], [], false⟩

theorem jmpCmp_consumes_both_witness :
    (jmpPredicate .JMP_EQ_LT = some (fun l r => decide (l < r)) ∧
      -(2 ^ 23) ≤ (2 : Int) ∧ (2 : Int) < 2 ^ 23 ∧
      (0 : Int) ≤ 0 ∧ (0 : Int).toNat < fnJmp.instructions.length ∧
      fnJmp.instructions.getD (0 : Int).toNat 0 = encode .JMP_EQ_LT 2 ∧
      (2 : Nat) ≤ (⟨[1, 5, 0, 0], 2, 0⟩ : ExecState).sp) ∧
    loopC envJmp (4 + 1) fnJmp 0 0 ⟨[1, 5, 0, 0], 2, 0⟩ =
      loopC envJmp 4 fnJmp 0
        (if (fun l r => decide (l < r)) (toI32 (([1, 5, 0, 0] : List Int).getD 0 0))
            (toI32 (([1, 5, 0, 0] : List Int).getD 1 0)) then (0 : Int) + 2 + 1
          else (0 : Int) + 1)
        ⟨[1, 5, 0, 0], 0, 1⟩ :=
  ⟨⟨rfl, by decide, by decide, by decide, by decide, by decide, by decide⟩,
    jmpCmp_consumes_both envJmp 4 fnJmp 0 0 ⟨[1, 5, 0, 0], 2, 0⟩ .JMP_EQ_LT _ 2
      rfl (by decide) (by decide) (by decide) (by decide) (by decide) (by decide)⟩

/-- A `.ret` outcome of the revision-C dispatch arises only from the
`FUNCTION_RETURN` case, which restores the stack pointer to the saved
`args`. -/
theorem stepC_ret_sp (env : EnvC)
    (r : Int → ExecState → Except (Err × ExecState) (StackElement × ExecState))
    (fn : FunctionSpec) (args : Nat) (ip : Int) (st : ExecState)
    (v : StackElement) (st' : ExecState)
    (h : stepC env r fn args ip st = .ret v st') : st'.sp = args := by
  simp only [stepC, StepC.ofExcept] at h
  repeat' split at h
  all_goals simp_all [ExecState.restore]
  obtain ⟨-, h2⟩ := h
  subst h2
  rfl

/-- Whenever revision C's bytecode loop returns normally, the stack
pointer stands at the saved `args` position — the only normal exit is
`FUNCTION_RETURN`. -/
theorem loopC_ok_sp (env : EnvC) (fuel : Nat) :
    ∀ (fn : FunctionSpec) (args : Nat) (ip : Int) (st : ExecState)
      (v : StackElement) (st' : ExecState),
      loopC env fuel fn args ip st = .ok (v, st') → st'.sp = args := by
  induction fuel with
  | zero =>
    intro fn args ip st v st' h
    exact absurd h (by simp [loopC, interpC])
  | succ n ih =>
    intro fn args ip st v st' h
    rw [loopC_succ] at h
    rcases hstep : stepC env (fun idx st => interpC env n (.call idx) st) fn args ip st with
      ⟨ip2, st2⟩ | ⟨v2, st2⟩ | ⟨e2, st2⟩
    · rw [hstep] at h
      exact ih _ _ _ _ _ _ h
    · rw [hstep] at h
      change Except.ok (v2, st2) = Except.ok (v, st') at h
      injection h with h1
      have hst : st2 = st' := congrArg Prod.snd h1
      subst hst
      exact stepC_ret_sp env _ fn args ip st v2 st2 hstep
    · rw [hstep] at h
      change Except.error (e2, st2) = Except.ok (v, st') at h
      exact Except.noConfusion h

/-- `getFunction` (revision C) succeeds on any in-range index and returns
the table entry. -/
theorem getFunctionC_ok (env : EnvC) (idx : Int) (fn : FunctionSpec)
    (st : ExecState) (h0 : 0 ≤ idx) (hlt : idx.toNat < env.functions.length)
    (hfn : env.functions.getD idx.toNat ⟨"", 0, 0, []⟩ = fn) :
    getFunctionC env idx st = .ok fn := by
  unfold getFunctionC
  rw [if_pos ⟨h0, hlt⟩, hfn]

/-- **C4.** For every function executed to completion via
`FUNCTION_RETURN` on the interpreter path: the value under the stack
pointer immediately before `FUNCTION_RETURN` is the return value and the
stack pointer is restored to the saved `args` position (first conjunct);
composing, a completed `interpret` leaves the stack pointer at its
entry position minus `nargs` — `args_base` — and the caller's push of the
result (`doFunctionCall`) leaves it at the pre-invocation position, before
the arguments were pushed, plus one (second conjunct). -/
theorem functionReturn_stack_discipline (env : EnvC) (fn : FunctionSpec) :
    (∀ (fuel : Nat) (args : Nat) (ip : Int) (st : ExecState) (p : Int),
      -(2 ^ 23) ≤ p → p < 2 ^ 23 →
      0 ≤ ip → ip.toNat < fn.instructions.length →
      fn.instructions.getD ip.toNat 0 = encode .FUNCTION_RETURN p →
      st.sp ≠ 0 →
      loopC env (fuel + 1) fn args ip st =
        .ok (st.mem.getD (st.sp - 1) 0, ⟨st.mem, args, st.pc⟩)) ∧
    (∀ (fuel : Nat) (idx : Int) (st : ExecState) (v : StackElement) (st' : ExecState),
      env.compiled = [] →
      0 ≤ idx → idx.toNat < env.functions.length →
      env.functions.getD idx.toNat ⟨"", 0, 0, []⟩ = fn →
      interpretC env fuel idx st = .ok (v, st') →
      st'.sp = st.sp - fn.nargs ∧
      ∀ st'', st'.push v = .ok st'' → st''.sp = st.sp - fn.nargs + 1) := by
  constructor
  · intro fuel args ip st p hp1 hp2 hip hlt hinstr hsp
    rw [loopC_succ]
    have hstep : stepC env (fun idx st => interpC env fuel (.call idx) st) fn args ip st =
        .ret (st.mem.getD (st.sp - 1) 0) ⟨st.mem, args, st.pc⟩ := by
      simp only [stepC, hinstr]
      rw [if_pos ⟨hip, hlt⟩,
        if_neg (by have := encode_param_bits p; simp only [encode, ByteCode.toRaw]; omega)]
      rw [byteCodeOf_encode, ByteCode.fromRaw_toRaw]
      rw [pop_ok st hsp]
      simp only [StepC.ofExcept, ExecState.restore]
    rw [hstep]
  · intro fuel idx st v st' hcomp h0 hlt hfn h
    have hmain : st'.sp = st.sp - fn.nargs := by
      cases fuel with
      | zero => exact absurd h (by simp [interpretC, interpC])
      | succ n =>
        unfold interpretC interpC at h
        simp only [getFunctionC_ok env idx fn st h0 hlt hfn] at h
        have hj : getJitAddressC env idx = none := by
          simp [getJitAddressC, hcomp]
        simp only [hj] at h
        split at h
        · exact absurd h (by simp)
        · split at h
          · exact absurd h (by simp)
          · exact loopC_ok_sp env n fn (st.sp - fn.nargs) 0 _ v st' h
    refine ⟨hmain, ?_⟩
    intro st'' hpush
    unfold ExecState.push at hpush
    split at hpush
    · injection hpush with h1
      rw [← h1]
      simp [hmain]
    · exact Except.noConfusion hpush

/-- Witness for C4: the `dup; add; return` function of `envDupC` applied
to argument `5` (stack `[7 | 5]`, pointer 2): `interpret` finishes with
stack pointer `2 - 1 = 1` and the caller's push puts it at `2 - 1 + 1`;
and the `FUNCTION_RETURN` step at its pre-return state returns the value
under the pointer, restoring the pointer to `args = 1`. -/
theorem functionReturn_stack_discipline_witness :
    ((-(2 ^ 23) : Int) ≤ 0 ∧ (0 : Int) < 2 ^ 23 ∧ (0 : Int) ≤ 2 ∧
      (2 : Int).toNat < fnDupC.instructions.length ∧
      fnDupC.instructions.getD (2 : Int).toNat 0 = encode .FUNCTION_RETURN 0 ∧
      (⟨[7, 10, 5, 0], 2, 2⟩ : ExecState).sp ≠ 0 ∧
      envDupC.compiled = [] ∧ (0 : Int) ≤ 0 ∧
      (0 : Int).toNat < envDupC.functions.length ∧
      envDupC.functions.getD (0 : Int).toNat ⟨"", 0, 0, []⟩ = fnDupC ∧
      interpretC envDupC 9 0 ⟨[7, 5, 0, 0], 2, 0⟩ = .ok (10, ⟨[7, 10, 5, 0], 1, 2⟩)) ∧
    loopC envDupC (1 + 1) fnDupC 1 2 ⟨[7, 10, 5, 0], 2, 2⟩ =
      .ok (([7, 10, 5, 0] : List Int).getD 1 0, ⟨[7, 10, 5, 0], 1, 2⟩) ∧
    (⟨[7, 10, 5, 0], 1, 2⟩ : ExecState).sp =
      (⟨[7, 5, 0, 0], 2, 0⟩ : ExecState).sp - fnDupC.nargs ∧
    (⟨[7, 10, 5, 0], 2, 2⟩ : ExecState).sp =
      (⟨[7, 5, 0, 0], 2, 0⟩ : ExecState).sp - fnDupC.nargs + 1 :=
  ⟨⟨by decide, by decide, by decide, by decide, by decide, by decide, rfl, by decide,
      by decide, rfl, rfl⟩,
    (functionReturn_stack_discipline envDupC fnDupC).1 1 1 2 ⟨[7, 10, 5, 0], 2, 2⟩ 0
      (by decide) (by decide) (by decide) (by decide) (by decide) (by decide),
    ((functionReturn_stack_discipline envDupC fnDupC).2 9 0 ⟨[7, 5, 0, 0], 2, 0⟩ 10
      ⟨[7, 10, 5, 0], 1, 2⟩ rfl (by decide) (by decide) rfl rfl).1,
    ((functionReturn_stack_discipline envDupC fnDupC).2 9 0 ⟨[7, 5, 0, 0], 2, 0⟩ 10
      ⟨[7, 10, 5, 0], 1, 2⟩ rfl (by decide) (by decide) rfl rfl).2
      ⟨[7, 10, 5, 0], 2, 2⟩ rfl⟩

end B9
